import Mathlib

/-! Verification of the QuickApp request-orchestration framework.

Shallow embedding of the framework's core subsystems:
* `ViewLockManager` (src/viewController/lockManager.ts)
* the migration runner (src/migrations/runner.ts)
* `JwtTokenService` (src/session/JwtTokenService.ts)
* `InMemorySessionManager` (src/session/InMemorySessionManager.ts)
* the RPC execution pipeline (src/rpc/createViewRpcHandler.ts)

JavaScript `async` control flow is modeled with explicit state passing,
thrown errors with `Except String`, and `Map` objects with association
lists preserving insertion order.
-/

namespace QuickApp

/-! Section: ViewLockManager (src/viewController/lockManager.ts)

`acquire(sessionId, viewKey)` builds the composite key
`sessionId + ":" + viewKey`, reads the current tail promise of the queue
(`this.locks.get(lockKey) ?? Promise.resolve()`), allocates a fresh `next`
promise whose `resolve` is captured by the returned release callback, stores
`current.then(() => next)` as the new tail, and awaits `current`.

Promises are modeled syntactically: each promise object created by the code
is a distinct constructor application, so JavaScript reference equality
(`===`) coincides with structural equality of `JsPromise` values (every
`waiterNext` carries a globally fresh id, and a `.then` chain is a new
object distinct from both of its arguments). -/

/-- The promise values that occur inside `ViewLockManager`:
`Promise.resolve()`, the per-waiter `next` promise, and the chained
`current.then(() => next)` promise. -/
inductive JsPromise where
  | resolvedUnit : JsPromise
  | waiterNext (id : Nat) : JsPromise
  | chain (p q : JsPromise) : JsPromise
deriving DecidableEq, Repr

/-- One `acquire` call: its arrival id, composite lock key, the `current`
promise it awaits before the lock is granted, and its fresh `next` promise
(resolved by its release callback). -/
structure Waiter where
  id : Nat
  lockKey : String
  current : JsPromise
  nextP : JsPromise
deriving DecidableEq, Repr

/-- State of a `ViewLockManager` plus the bookkeeping needed to talk about
past acquisitions: the `locks` map, the id counter for fresh promises, the
arrival-ordered list of waiters, and the set of waiter ids whose release
callback has been invoked. -/
structure LockManagerState where
  locks : List (String × JsPromise)
  nextId : Nat
  waiters : List Waiter
  released : List Nat
deriving Repr

/-- Embeds `Map.prototype.get` on the `locks` map. -/
def lookupLock (locks : List (String × JsPromise)) (k : String) : Option JsPromise :=
  (locks.find? (fun e => e.1 = k)).map (fun e => e.2)

/-- Embeds `Map.prototype.set` on the `locks` map (update in place, else append,
preserving insertion order). -/
def setLock (locks : List (String × JsPromise)) (k : String) (p : JsPromise) :
    List (String × JsPromise) :=
  if (locks.find? (fun e => e.1 = k)).isSome then
    locks.map (fun e => if e.1 = k then (k, p) else e)
  else
    locks ++ [(k, p)]

/-- Embeds `Map.prototype.delete` on the `locks` map. -/
def deleteLock (locks : List (String × JsPromise)) (k : String) :
    List (String × JsPromise) :=
  locks.filter (fun e => !(e.1 = k))

/-- The composite key computed by `acquire`. -/
def lockKeyOf (sessionId viewKey : String) : String :=
  sessionId ++ ":" ++ viewKey

/-- One `acquire(sessionId, viewKey)` call. -/
def acquireStep (s : LockManagerState) (sessionId viewKey : String) : LockManagerState :=
  let lockKey := lockKeyOf sessionId viewKey
  let current := (lookupLock s.locks lockKey).getD JsPromise.resolvedUnit
  let nextP := JsPromise.waiterNext s.nextId
  { locks := setLock s.locks lockKey (JsPromise.chain current nextP)
    nextId := s.nextId + 1
    waiters := s.waiters ++ [⟨s.nextId, lockKey, current, nextP⟩]
    released := s.released }

/-- Invoking the release callback captured for waiter `w`:
`resolve()` marks `w.nextP` resolved, then the entry is deleted only when
`this.locks.get(lockKey) === next`. -/
def releaseStep (s : LockManagerState) (w : Waiter) : LockManagerState :=
  let s1 : LockManagerState := { s with released := w.id :: s.released }
  if lookupLock s1.locks w.lockKey = some w.nextP then
    { s1 with locks := deleteLock s1.locks w.lockKey }
  else s1

/-- Interleaved client actions against one `ViewLockManager`. -/
inductive LockEvent where
  | acquire (sessionId viewKey : String)
  | release (id : Nat)
deriving DecidableEq, Repr

/-- Applies one event; releasing an id that was never handed out is a no-op. -/
def lockStep (s : LockManagerState) : LockEvent → LockManagerState
  | LockEvent.acquire sessionId viewKey => acquireStep s sessionId viewKey
  | LockEvent.release i =>
    match s.waiters.find? (fun w => w.id = i) with
    | some w => releaseStep s w
    | none => s

/-- A freshly constructed `ViewLockManager`. -/
def initialLockState : LockManagerState :=
  { locks := [], nextId := 0, waiters := [], released := [] }

/-- Runs a sequence of events against a fresh manager. -/
def runLock (events : List LockEvent) : LockManagerState :=
  events.foldl lockStep initialLockState

/-- The release callbacks a promise transitively waits for:
`current.then(() => next)` settles exactly when both arms have settled. -/
def promiseDeps : JsPromise → List Nat
  | JsPromise.resolvedUnit => []
  | JsPromise.waiterNext i => [i]
  | JsPromise.chain p q => promiseDeps p ++ promiseDeps q

/-- Whether a promise has settled, given the set of release callbacks that
have been invoked (promise settlement is monotone in that set). -/
def resolvedIn (released : List Nat) : JsPromise → Bool
  | JsPromise.resolvedUnit => true
  | JsPromise.waiterNext i => released.contains i
  | JsPromise.chain p q => resolvedIn released p && resolvedIn released q

/-- Reachability invariant of `ViewLockManager` states. -/
structure LockInv (s : LockManagerState) : Prop where
  ids_range : s.waiters.map Waiter.id = List.range s.nextId
  next_shape : ∀ w ∈ s.waiters, w.nextP = JsPromise.waiterNext w.id
  map_chain : ∀ k p, lookupLock s.locks k = some p → ∃ c n, p = JsPromise.chain c n
  map_none : ∀ k, lookupLock s.locks k = none → ∀ w ∈ s.waiters, w.lockKey ≠ k
  map_deps_sub : ∀ k p, lookupLock s.locks k = some p → ∀ i ∈ promiseDeps p,
    ∃ w ∈ s.waiters, w.id = i ∧ w.lockKey = k
  map_deps_sup : ∀ k p, lookupLock s.locks k = some p → ∀ w ∈ s.waiters,
    w.lockKey = k → w.id ∈ promiseDeps p
  current_deps : ∀ w ∈ s.waiters, ∀ i ∈ promiseDeps w.current,
    ∃ w2 ∈ s.waiters, w2.id = i ∧ w2.lockKey = w.lockKey
  fifo : ∀ w1 ∈ s.waiters, ∀ w2 ∈ s.waiters, w1.id < w2.id →
    w1.lockKey = w2.lockKey → w1.id ∈ promiseDeps w2.current

/-! Section: Migration runner (src/migrations/runner.ts, src/migrations/types.ts)

The dialect adapter is a collaborator behind `IMigrationDialectAdapter`;
it is modeled as a record of pure operations over an abstract adapter
state `σ`, each of which may fail (a thrown error is `Except.error` with
the error message).  The runner's output additionally carries the exact
sequence of adapter operations it invoked, playing the role of the spy
adapter used in the repository's own tests. -/

/-- Embeds `IMigration` (src/migrations/types.ts). -/
structure IMigration where
  version : String
  name : String
  sql : String
  checksum : String
deriving DecidableEq, Repr

/-- Embeds `IAppliedMigration` (src/migrations/types.ts). -/
structure IAppliedMigration where
  version : String
  checksum : String
  appliedAt : String
deriving DecidableEq, Repr

/-- The migration error taxonomy: `MigrationValidationError`,
`MigrationApplyError(version, cause)`, and a raw error propagated
unwrapped from `ensureMetadataTable` / `listAppliedMigrations`. -/
inductive MigrationRunError where
  | validation (message : String)
  | applyFailed (version : String) (cause : String)
  | adapterFailure (message : String)
deriving DecidableEq, Repr

/-- One adapter invocation, recorded in arrival order. -/
inductive AdapterCall where
  | ensureMetadataTable
  | listAppliedMigrations
  | applyMigrationSql (version : String)
  | recordAppliedMigration (version : String)
deriving DecidableEq, Repr

/-- Embeds `IMigrationDialectAdapter` as pure state transformers over `σ`. -/
structure MigrationAdapter (σ : Type) where
  ensureMetadataTable : σ → Except String σ
  listAppliedMigrations : σ → Except String (σ × List (String × IAppliedMigration))
  applyMigrationSql : IMigration → σ → Except String σ
  recordAppliedMigration : IMigration → σ → Except String σ

/-- Embeds `IMigrationReport` (src/migrations/types.ts). -/
structure IMigrationReport where
  appliedVersions : List String
  skippedVersions : List String
  currentVersion : String
deriving DecidableEq, Repr

/-- Embeds `compareVersions`: `left.localeCompare(right)`, modeled as code-point
lexicographic string comparison (negative / zero / positive becomes
`Ordering.lt` / `.eq` / `.gt`). -/
def compareVersions (left right : String) : Ordering :=
  compare left right

/-- Embeds `applied.get(version)` on the map returned by `listAppliedMigrations`. -/
def lookupApplied (applied : List (String × IAppliedMigration)) (version : String) :
    Option IAppliedMigration :=
  (applied.find? (fun e => e.1 = version)).map (fun e => e.2)

/-- Embeds `validateMigrationOrdering` (runner.ts): rejects duplicate versions and
lists not in strictly ascending order.  `seen` is the `seenVersions` set and
`prev` the previous list element (`index > 0` in the source). -/
def validateMigrationGo (seen : List String) (prev : Option IMigration) :
    List IMigration → Except MigrationRunError Unit
  | [] => Except.ok ()
  | current :: rest =>
    if seen.contains current.version then
      Except.error (MigrationRunError.validation
        ("Duplicate migration version detected: " ++ current.version))
    else
      match prev with
      | some p =>
        if compareVersions p.version current.version ≠ Ordering.lt then
          Except.error (MigrationRunError.validation
            "Migrations must be provided in strictly ascending version order.")
        else validateMigrationGo (current.version :: seen) (some current) rest
      | none => validateMigrationGo (current.version :: seen) (some current) rest

/-- Embeds `validateMigrationOrdering` entry point. -/
def validateMigrationOrdering (migrations : List IMigration) : Except MigrationRunError Unit :=
  validateMigrationGo [] none migrations

/-- The `break` condition of the execution loop:
`options.targetVersion && compareVersions(migration.version, options.targetVersion) > 0`
(an empty-string target is falsy in JavaScript, so it disables the ceiling). -/
def targetExceeded (targetVersion : Option String) (version : String) : Bool :=
  match targetVersion with
  | none => false
  | some t => if t = "" then false else compareVersions version t = Ordering.gt

/-- Mutable loop state of `runMigrationPlan`: adapter state, the recorded
adapter calls, and the accumulating `appliedVersions` / `skippedVersions`. -/
structure MigrationLoopState (σ : Type) where
  state : σ
  log : List AdapterCall
  appliedVersions : List String
  skippedVersions : List String

/-- The `for (const migration of options.migrations)` loop of
`runMigrationPlan`; returns the loop state at exit and the error that
halted the run, if any. -/
def runMigrationLoop {σ : Type} (adapter : MigrationAdapter σ)
    (applied : List (String × IAppliedMigration)) (targetVersion : Option String) :
    List IMigration → MigrationLoopState σ →
    MigrationLoopState σ × Option MigrationRunError
  | [], ls => (ls, none)
  | migration :: rest, ls =>
    if targetExceeded targetVersion migration.version then (ls, none)
    else
      match lookupApplied applied migration.version with
      | some existing =>
        if existing.checksum ≠ migration.checksum then
          (ls, some (MigrationRunError.validation
            ("Checksum mismatch for applied migration " ++ migration.version ++ ".")))
        else
          runMigrationLoop adapter applied targetVersion rest
            { ls with skippedVersions := ls.skippedVersions ++ [migration.version] }
      | none =>
        match adapter.applyMigrationSql migration ls.state with
        | Except.error cause =>
          ({ ls with log := ls.log ++ [AdapterCall.applyMigrationSql migration.version] },
           some (MigrationRunError.applyFailed migration.version cause))
        | Except.ok s1 =>
          match adapter.recordAppliedMigration migration s1 with
          | Except.error cause =>
            ({ ls with
                state := s1
                log := ls.log ++ [AdapterCall.applyMigrationSql migration.version,
                  AdapterCall.recordAppliedMigration migration.version] },
             some (MigrationRunError.applyFailed migration.version cause))
          | Except.ok s2 =>
            runMigrationLoop adapter applied targetVersion rest
              { state := s2
                log := ls.log ++ [AdapterCall.applyMigrationSql migration.version,
                  AdapterCall.recordAppliedMigration migration.version]
                appliedVersions := ls.appliedVersions ++ [migration.version]
                skippedVersions := ls.skippedVersions }

/-- Final output of `runMigrationPlan`: the adapter state and call log at
exit, and either the `IMigrationReport` or the error that halted the run. -/
structure MigrationRunOutput (σ : Type) where
  state : σ
  log : List AdapterCall
  result : Except MigrationRunError IMigrationReport

/-- Embeds `options.targetVersion ?? migrations[migrations.length - 1]?.version ?? "0"`
(nullish coalescing: an empty-string target is kept here). -/
def reportCurrentVersion (migrations : List IMigration) (targetVersion : Option String) :
    String :=
  match targetVersion with
  | some t => t
  | none =>
    match migrations.getLast? with
    | some m => m.version
    | none => "0"

/-- Embeds `runMigrationPlan` (runner.ts). -/
def runMigrationPlan {σ : Type} (adapter : MigrationAdapter σ)
    (migrations : List IMigration) (targetVersion : Option String) (s0 : σ) :
    MigrationRunOutput σ :=
  match validateMigrationOrdering migrations with
  | Except.error e => { state := s0, log := [], result := Except.error e }
  | Except.ok _ =>
    match adapter.ensureMetadataTable s0 with
    | Except.error msg =>
      { state := s0, log := [AdapterCall.ensureMetadataTable],
        result := Except.error (MigrationRunError.adapterFailure msg) }
    | Except.ok s1 =>
      match adapter.listAppliedMigrations s1 with
      | Except.error msg =>
        { state := s1,
          log := [AdapterCall.ensureMetadataTable, AdapterCall.listAppliedMigrations],
          result := Except.error (MigrationRunError.adapterFailure msg) }
      | Except.ok (s2, applied) =>
        let start : MigrationLoopState σ :=
          { state := s2
            log := [AdapterCall.ensureMetadataTable, AdapterCall.listAppliedMigrations]
            appliedVersions := []
            skippedVersions := [] }
        match runMigrationLoop adapter applied targetVersion migrations start with
        | (ls, some e) => { state := ls.state, log := ls.log, result := Except.error e }
        | (ls, none) =>
          { state := ls.state, log := ls.log,
            result := Except.ok
              { appliedVersions := ls.appliedVersions
                skippedVersions := ls.skippedVersions
                currentVersion := reportCurrentVersion migrations targetVersion } }

/-! Section: JwtTokenService (src/session/JwtTokenService.ts)

Tokens are three base64url segments `header.payload.signature` with
`signature = HMAC-SHA256(secret, header + "." + payload)`.  The embedding
keeps each segment as its decoded structured value: base64url encoding and
`JSON.stringify` / `JSON.parse` round-trip structurally, and base64url
output never contains `.`, so the three-segment split always succeeds on a
token produced by `signToken`.  The HMAC digest is modeled as an opaque
value determined by (and, as an idealized collision-free MAC, determining)
the secret and the signed text; `timingSafeEqual` is equality of these
values.  `Date.now()` is passed explicitly in milliseconds. -/

/-- Embeds `IJwtClaims` (src/session/tokenService.ts): `exp` is in seconds. -/
structure IJwtClaims where
  sub : String
  sid : String
  roles : List String
  exp : Int
deriving DecidableEq, Repr

/-- The decoded header segment `{alg: "HS256", typ: "JWT"}`. -/
structure TokenHeader where
  alg : String
  typ : String
deriving DecidableEq, Repr

/-- The constant header used by `signToken`. -/
def jwtHeader : TokenHeader := { alg := "HS256", typ := "JWT" }

/-- The decoded payload segment `{...claims, typ, iss, aud}` (`iss` / `aud`
are dropped by `JSON.stringify` when the config leaves them undefined). -/
structure TokenPayload where
  claims : IJwtClaims
  typ : String
  iss : Option String
  aud : Option String
deriving DecidableEq, Repr

/-- The HMAC-SHA256 digest over `header + "." + payload`, as an opaque
value of the secret and the signed segments. -/
structure HmacSignature where
  secret : String
  header : TokenHeader
  payload : TokenPayload
deriving DecidableEq, Repr

/-- A well-formed three-segment token. -/
structure JwtToken where
  header : TokenHeader
  payload : TokenPayload
  signature : HmacSignature
deriving DecidableEq, Repr

/-- Embeds `IJwtTokenServiceConfig`. -/
structure IJwtTokenServiceConfig where
  secret : String
  issuer : Option String
  audience : Option String
deriving DecidableEq, Repr

/-- Embeds `ISignedToken`: `expiresAt` is `new Date(claims.exp * 1000)` kept as the
millisecond timestamp rather than its ISO rendering. -/
structure ISignedToken where
  token : JwtToken
  expiresAt : Int
deriving DecidableEq, Repr

/-- The private `sign(data)` helper: `createHmac("sha256", secret)` over
`header + "." + payload`. -/
def hmacSign (config : IJwtTokenServiceConfig) (header : TokenHeader)
    (payload : TokenPayload) : HmacSignature :=
  { secret := config.secret, header := header, payload := payload }

/-- The private `signToken` method. -/
def signToken (config : IJwtTokenServiceConfig) (claims : IJwtClaims) (typ : String) :
    ISignedToken :=
  let payload : TokenPayload :=
    { claims := claims, typ := typ, iss := config.issuer, aud := config.audience }
  { token :=
      { header := jwtHeader, payload := payload
        signature := hmacSign config jwtHeader payload }
    expiresAt := claims.exp * 1000 }

/-- Embeds `signAccessToken`. -/
def signAccessToken (config : IJwtTokenServiceConfig) (claims : IJwtClaims) : ISignedToken :=
  signToken config claims "access"

/-- Embeds `signRefreshToken`. -/
def signRefreshToken (config : IJwtTokenServiceConfig) (claims : IJwtClaims) : ISignedToken :=
  signToken config claims "refresh"

/-- JavaScript truthiness of an optional string config field
(`undefined` and `""` are falsy). -/
def optionTruthy : Option String → Bool
  | none => false
  | some s => if s = "" then false else true

/-- The private `verifyToken` method (`now` is `Date.now()` in ms).  The
malformed-token check (`parts.length !== 3`) is inherent to the structured
`JwtToken` type. -/
def verifyToken (config : IJwtTokenServiceConfig) (now : Int) (token : JwtToken) :
    Except String TokenPayload :=
  let expected := hmacSign config token.header token.payload
  if token.signature = expected then
    if optionTruthy config.issuer = true ∧ token.payload.iss ≠ config.issuer then
      Except.error "Invalid token issuer."
    else if optionTruthy config.audience = true ∧ token.payload.aud ≠ config.audience then
      Except.error "Invalid token audience."
    else if token.payload.claims.exp * 1000 < now then
      Except.error "Token expired."
    else Except.ok token.payload
  else Except.error "Invalid token signature."

/-- Embeds `stripTokenType`: keeps `{sub, sid, roles, exp}`. -/
def stripTokenType (payload : TokenPayload) : IJwtClaims :=
  payload.claims

/-- Embeds `verifyAccessToken`. -/
def verifyAccessToken (config : IJwtTokenServiceConfig) (now : Int) (token : JwtToken) :
    Except String IJwtClaims :=
  match verifyToken config now token with
  | Except.error e => Except.error e
  | Except.ok payload =>
    if payload.typ ≠ "access" then Except.error "Invalid token type."
    else Except.ok (stripTokenType payload)

/-- Embeds `verifyRefreshToken`. -/
def verifyRefreshToken (config : IJwtTokenServiceConfig) (now : Int) (token : JwtToken) :
    Except String IJwtClaims :=
  match verifyToken config now token with
  | Except.error e => Except.error e
  | Except.ok payload =>
    if payload.typ ≠ "refresh" then Except.error "Invalid token type."
    else Except.ok (stripTokenType payload)

/-! Section: InMemorySessionManager (src/session/InMemorySessionManager.ts)

Stateful pieces are passed explicitly: the refresh-token store is the list
of `save` calls (insertion-ordered `Map`), and every `Date.now()` read
during one call is the single `now` argument (the call runs without
suspension between its `Date.now()` reads). -/

/-- Embeds `ISessionInfo` (src/context/types.ts): `roles` is optional. -/
structure ISessionInfo where
  userId : String
  sessionId : String
  roles : Option (List String)
deriving DecidableEq, Repr

/-- Embeds `ISessionTokens` (src/session/types.ts), with structured tokens and the
expiry kept in milliseconds. -/
structure ISessionTokens where
  accessToken : JwtToken
  refreshToken : JwtToken
  expiresAt : Int
deriving DecidableEq, Repr

/-- Embeds `IInMemorySessionManagerConfig`. -/
structure IInMemorySessionManagerConfig where
  accessTokenTtlSeconds : Int
  refreshTokenTtlSeconds : Int
  defaultRoles : List String
deriving DecidableEq, Repr

/-- Embeds `InMemoryRefreshTokenStore`: the `refreshTokens` map as saved entries. -/
abbrev RefreshTokenStore : Type := List (JwtToken × IJwtClaims)

/-- Embeds `InMemoryRefreshTokenStore.save`. -/
def refreshStoreSave (store : RefreshTokenStore) (token : JwtToken)
    (claims : IJwtClaims) : RefreshTokenStore :=
  (token, claims) :: store

/-- The private `generateSessionId`: `` `${userId}-${timestamp}` ``. -/
def generateSessionId (userId : String) (now : Int) : String :=
  userId ++ "-" ++ toString now

/-- The private `buildClaims`:
`exp = Math.floor((Date.now() + ttlSeconds * 1000) / 1000)`. -/
def buildClaims (userId sessionId : String) (roles : List String)
    (ttlSeconds now : Int) : IJwtClaims :=
  { sub := userId, sid := sessionId, roles := roles
    exp := Int.fdiv (now + ttlSeconds * 1000) 1000 }

/-- Embeds `createSession(userId, roles)`. -/
def createSession (svc : IJwtTokenServiceConfig) (cfg : IInMemorySessionManagerConfig)
    (store : RefreshTokenStore) (userId : String) (roles : List String) (now : Int) :
    RefreshTokenStore × ISessionTokens :=
  let sessionId := generateSessionId userId now
  let accessClaims := buildClaims userId sessionId roles cfg.accessTokenTtlSeconds now
  let refreshClaims := buildClaims userId sessionId roles cfg.refreshTokenTtlSeconds now
  let accessToken := signAccessToken svc accessClaims
  let refreshToken := signRefreshToken svc refreshClaims
  (refreshStoreSave store refreshToken.token refreshClaims,
   { accessToken := accessToken.token
     refreshToken := refreshToken.token
     expiresAt := accessToken.expiresAt })

/-- The `authorization` request header, already split at the first space:
`scheme` is the text before it and `token` the (decoded) bearer credential
after it, `none` when the header has no second part. -/
structure AuthorizationHeader where
  scheme : String
  token : Option JwtToken
deriving DecidableEq, Repr

/-- The slice of `IHttpRequest` the session manager reads. -/
structure SessionHttpRequest where
  authorization : Option AuthorizationHeader
deriving DecidableEq, Repr

/-- The private `extractAccessToken`. -/
def extractAccessToken (request : SessionHttpRequest) : Except String JwtToken :=
  match request.authorization with
  | none => Except.error "Missing Authorization header."
  | some header =>
    if header.scheme ≠ "Bearer" then Except.error "Invalid Authorization header format."
    else
      match header.token with
      | none => Except.error "Invalid Authorization header format."
      | some token => Except.ok token

/-- Embeds `IRequireSessionResult` (src/session/types.ts). -/
structure IRequireSessionResult where
  sessionInfo : ISessionInfo
  refreshedTokens : ISessionTokens
deriving DecidableEq, Repr

/-- Embeds `requireSession(request)`: verifies the bearer access token, then
issues a fresh token pair through `createSession(claims.sub, claims.roles)`.
Returns the updated refresh-token store alongside the result. -/
def requireSession (svc : IJwtTokenServiceConfig) (cfg : IInMemorySessionManagerConfig)
    (store : RefreshTokenStore) (request : SessionHttpRequest) (now : Int) :
    Except String (RefreshTokenStore × IRequireSessionResult) :=
  match extractAccessToken request with
  | Except.error e => Except.error e
  | Except.ok accessToken =>
    match verifyAccessToken svc now accessToken with
    | Except.error e => Except.error e
    | Except.ok claims =>
      let sessionInfo : ISessionInfo :=
        { userId := claims.sub, sessionId := claims.sid, roles := some claims.roles }
      let refreshed := createSession svc cfg store claims.sub claims.roles now
      Except.ok (refreshed.1,
        { sessionInfo := sessionInfo, refreshedTokens := refreshed.2 })

/-! Section: RPC execution pipeline (src/rpc/createViewRpcHandler.ts)

The pipeline is modeled for an arbitrary value type `V` standing for the
opaque JSON payloads (args, results, view data); `JSON.stringify` /
`JSON.parse` on a stored record round-trip structurally, so the serialized
blob in the view-data store is kept as its decoded value.  The injected
collaborators become explicit parameters: the registry is a function from
view key to entry, the session manager the `requireSession` closure, the
view-data store an explicit association-list state with the single-record
read / upsert semantics of its contract, and the lock manager's acquire /
release (whose queueing semantics are the `ViewLockManager` model above)
appear as recorded events.  In-place mutation of `context.viewData` by the
`onBeforeCall` hook and the invoked method is modeled by returning the
updated view data.  `databaseConnection` and `logger` are opaque
pass-throughs and are omitted from the context.  Each run records the
sequence of observable pipeline events, and `next` being wired or not is
the `hasNext` flag. -/

/-- Observable steps of one pipeline run, in execution order. -/
inductive PipeEvent where
  | authenticate
  | roleCheck
  | lockAcquire (sessionId viewKey : String)
  | lockRelease
  | writeTokens
  | authorizeHook
  | loadRecord
  | initializerInvoke
  | saveInitialState
  | beforeCallHook
  | methodInvoke
  | savePersistedState
deriving DecidableEq, Repr

/-- Embeds `IViewControllerConfig` (src/viewController/types.ts). -/
structure PipeControllerConfig where
  key : String
  roles : Option (List String)
deriving DecidableEq, Repr

/-- Embeds `ICallableConfig` (src/viewController/types.ts). -/
structure PipeCallableConfig where
  key : String
  allowedRoles : Option (List String)
  allowUnauthenticated : Option Bool
deriving DecidableEq, Repr

/-- Embeds `ICallableMetadata` (src/viewController/types.ts). -/
structure PipeCallableMetadata where
  config : PipeCallableConfig
  methodName : String
deriving DecidableEq, Repr

/-- Embeds `IContextBase` without the opaque `databaseConnection` / `logger`. -/
structure PipeContextBase where
  requestId : String
  sessionInfo : ISessionInfo
deriving DecidableEq, Repr

/-- Embeds `IContext<TViewData>`: the base context plus `viewData`. -/
structure PipeContext (V : Type) where
  base : PipeContextBase
  viewData : V

/-- A controller instance as the pipeline probes it: the three optional
capabilities checked with `typeof ... === "function"`, and its callable
methods looked up by name.  A hook or method models in-place mutation of
`context.viewData` (and a thrown error) through its return value. -/
structure PipeController (V : Type) where
  createViewData : Option (PipeContextBase → Except String V)
  authorize : Option (PipeContextBase → Except String Unit)
  onBeforeCall : Option (PipeContext V → Except String (PipeContext V))
  methods : List (String × (V → PipeContext V → Except String (V × V)))

/-- A registry entry (`IViewControllerEntry`). -/
structure PipeControllerEntry (V : Type) where
  config : PipeControllerConfig
  controller : PipeController V
  callables : List PipeCallableMetadata

/-- Embeds `resolveViewController` as a function from view key to entry. -/
abbrev PipeRegistry (V : Type) : Type := String → Option (PipeControllerEntry V)

/-- The slice of `IHttpRequest` the handler reads: `request.params.key`
and the JSON body (absent body or `method` modeled by `Option`). -/
structure PipeRequestBody (V : Type) where
  method : Option String
  args : V

/-- The RPC request: route parameter and body. -/
structure PipeRequest (V : Type) where
  paramsKey : Option String
  body : Option (PipeRequestBody V)

/-- The `IViewDataStore` state: one record per `(sessionId, viewKey)`. -/
abbrev ViewStore (V : Type) : Type := List ((String × String) × V)

/-- Embeds `viewDataStore.load(sessionId, viewKey)` (atomic single-record read per
the store contract). -/
def viewStoreLoad {V : Type} (store : ViewStore V) (sessionId viewKey : String) :
    Option V :=
  (store.find? (fun e => e.1 = (sessionId, viewKey))).map (fun e => e.2)

/-- Embeds `viewDataStore.save(sessionId, viewKey, data)` (atomic single-record
upsert per the store contract). -/
def viewStoreSave {V : Type} (store : ViewStore V) (sessionId viewKey : String)
    (viewData : V) : ViewStore V :=
  if (store.find? (fun e => e.1 = (sessionId, viewKey))).isSome then
    store.map (fun e => if e.1 = (sessionId, viewKey) then ((sessionId, viewKey), viewData) else e)
  else
    store ++ [((sessionId, viewKey), viewData)]

/-- The session manager result consumed by the pipeline
(`IRequireSessionResult` with already-serialized refreshed tokens). -/
structure PipeRefreshedTokens where
  accessToken : String
  refreshToken : String
  expiresAt : String
deriving DecidableEq, Repr

/-- Embeds `sessionManager.requireSession` output as the handler sees it. -/
structure PipeSessionResult where
  sessionInfo : ISessionInfo
  refreshedTokens : Option PipeRefreshedTokens

/-- The handler dependencies the claims exercise: the session manager's
`requireSession` and the request id produced by `requestIdFactory()` for
this call. -/
structure PipeDeps (V : Type) where
  requireSession : PipeRequest V → Except String PipeSessionResult
  requestId : String

/-- Response bodies: `{error}` or the success payload `{result, viewData}`. -/
inductive PipeResponseBody (V : Type) where
  | errorBody (error : String)
  | successBody (result : V) (viewData : V)

/-- A finished run: either a `status(code).json(body)` response, or the raw
error forwarded to `next`. -/
inductive PipeOutcome (V : Type) where
  | respond (status : Nat) (body : PipeResponseBody V)
  | forward (message : String)

/-- Embeds `parseRequestBody`: `!body || !body.method` (an empty-string method is
falsy) throws `Missing method in request body.`. -/
def parseRequestBody {V : Type} (request : PipeRequest V) : Except String (String × V) :=
  match request.body with
  | none => Except.error "Missing method in request body."
  | some body =>
    match body.method with
    | none => Except.error "Missing method in request body."
    | some m =>
      if m = "" then Except.error "Missing method in request body."
      else Except.ok (m, body.args)

/-- Embeds `resolveCallable`. -/
def resolveCallable {V : Type} (registry : PipeRegistry V)
    (controllerKey methodKey : String) :
    Except String (PipeControllerEntry V × PipeCallableMetadata) :=
  match registry controllerKey with
  | none => Except.error "ViewController not found."
  | some entry =>
    match entry.callables.find? (fun item => item.config.key = methodKey) with
    | none => Except.error "Callable method not found."
    | some callable => Except.ok (entry, callable)

/-- Embeds `hasRequiredRole`. -/
def hasRequiredRole (sessionRoles : Option (List String))
    (allowedRoles : Option (List String)) : Bool :=
  match allowedRoles with
  | none => true
  | some allowed =>
    if allowed.length = 0 then true
    else
      match sessionRoles with
      | none => false
      | some roles =>
        if roles.length = 0 then false
        else allowed.any (fun role => roles.contains role)

/-- Embeds `assertRoleAccess`: controller-level constraint first, then the
callable-level constraint; either failure throws `Forbidden.`. -/
def assertRoleAccess {V : Type} (entry : PipeControllerEntry V)
    (callable : PipeCallableMetadata) (sessionRoles : Option (List String)) :
    Except String Unit :=
  if hasRequiredRole sessionRoles entry.config.roles then
    if hasRequiredRole sessionRoles callable.config.allowedRoles then Except.ok ()
    else Except.error "Forbidden."
  else Except.error "Forbidden."

/-- Embeds `loadOrCreateViewData`: load the record (deserializing its blob), else
require the controller's `createViewData` initializer, invoke it once, and
persist the created state immediately. -/
def loadOrCreateViewData {V : Type} (entry : PipeControllerEntry V)
    (baseContext : PipeContextBase) (sessionId controllerKey : String)
    (store : ViewStore V) : ViewStore V × List PipeEvent × Except String V :=
  match viewStoreLoad store sessionId controllerKey with
  | some record => (store, [PipeEvent.loadRecord], Except.ok record)
  | none =>
    match entry.controller.createViewData with
    | none =>
      (store, [PipeEvent.loadRecord], Except.error "ViewData initializer missing.")
    | some createViewData =>
      match createViewData baseContext with
      | Except.error msg =>
        (store, [PipeEvent.loadRecord, PipeEvent.initializerInvoke], Except.error msg)
      | Except.ok viewData =>
        (viewStoreSave store sessionId controllerKey viewData,
         [PipeEvent.loadRecord, PipeEvent.initializerInvoke, PipeEvent.saveInitialState],
         Except.ok viewData)

/-- Embeds `executeCallable`: looks up `entry.controller[callable.methodName]` and
calls it; a missing method is the JavaScript `TypeError` of calling a
non-function, surfaced as an unexpected error. -/
def executeCallable {V : Type} (entry : PipeControllerEntry V)
    (callable : PipeCallableMetadata) (args : V) (context : PipeContext V) :
    Except String (V × V) :=
  match entry.controller.methods.find? (fun m => m.1 = callable.methodName) with
  | none => Except.error "entry.controller[callable.methodName] is not a function"
  | some m => m.2 args context

/-- The region of `handleViewRpc` executed while the lock is held (the
inner `try`): write refreshed tokens, build the base context, run the
optional `authorize` hook, hydrate-or-create view data, run the optional
`onBeforeCall` hook, invoke the method, and persist the view data. -/
def lockedSection {V : Type} (deps : PipeDeps V) (entry : PipeControllerEntry V)
    (callable : PipeCallableMetadata) (args : V) (sessionResult : PipeSessionResult)
    (controllerKey : String) (store : ViewStore V) :
    ViewStore V × List PipeEvent × Except String (PipeResponseBody V) :=
  let tokenEvents : List PipeEvent :=
    match sessionResult.refreshedTokens with
    | some _ => [PipeEvent.writeTokens]
    | none => []
  let baseContext : PipeContextBase :=
    { requestId := deps.requestId, sessionInfo := sessionResult.sessionInfo }
  let authorizeEvents : List PipeEvent :=
    match entry.controller.authorize with
    | none => []
    | some _ => [PipeEvent.authorizeHook]
  let authorizeResult : Except String Unit :=
    match entry.controller.authorize with
    | none => Except.ok ()
    | some hook => hook baseContext
  match authorizeResult with
  | Except.error msg =>
    (store, tokenEvents ++ authorizeEvents, Except.error msg)
  | Except.ok _ =>
    match loadOrCreateViewData entry baseContext
        sessionResult.sessionInfo.sessionId controllerKey store with
    | (store1, loadEvents, Except.error msg) =>
      (store1, tokenEvents ++ authorizeEvents ++ loadEvents, Except.error msg)
    | (store1, loadEvents, Except.ok viewData) =>
      let context : PipeContext V := { base := baseContext, viewData := viewData }
      let beforeEvents : List PipeEvent :=
        match entry.controller.onBeforeCall with
        | none => []
        | some _ => [PipeEvent.beforeCallHook]
      let beforeResult : Except String (PipeContext V) :=
        match entry.controller.onBeforeCall with
        | none => Except.ok context
        | some hook => hook context
      match beforeResult with
      | Except.error msg =>
        (store1, tokenEvents ++ authorizeEvents ++ loadEvents ++ beforeEvents,
         Except.error msg)
      | Except.ok context1 =>
        match executeCallable entry callable args context1 with
        | Except.error msg =>
          (store1,
           tokenEvents ++ authorizeEvents ++ loadEvents ++ beforeEvents ++
             [PipeEvent.methodInvoke],
           Except.error msg)
        | Except.ok (result, viewData1) =>
          (viewStoreSave store1 sessionResult.sessionInfo.sessionId controllerKey viewData1,
           tokenEvents ++ authorizeEvents ++ loadEvents ++ beforeEvents ++
             [PipeEvent.methodInvoke, PipeEvent.savePersistedState],
           Except.ok (PipeResponseBody.successBody result viewData1))

/-- The `catch` block's error-to-outcome mapping: forward to `next` when it
is wired, else map the known messages to 400 / 404 / 403 / 500 and
everything else to the generic 500. -/
def mapPipelineError {V : Type} (hasNext : Bool) (message : String) : PipeOutcome V :=
  if hasNext then PipeOutcome.forward message
  else if message = "Missing method in request body." ∨
      message = "Missing view controller key." then
    PipeOutcome.respond 400 (PipeResponseBody.errorBody message)
  else if message = "ViewController not found." ∨
      message = "Callable method not found." then
    PipeOutcome.respond 404 (PipeResponseBody.errorBody message)
  else if message = "Forbidden." then
    PipeOutcome.respond 403 (PipeResponseBody.errorBody message)
  else if message = "ViewData initializer missing." then
    PipeOutcome.respond 500 (PipeResponseBody.errorBody message)
  else PipeOutcome.respond 500 (PipeResponseBody.errorBody "Unexpected server error.")

/-- Embeds `handleViewRpc`: the full pipeline.  Returns the view-data store after
the call, the event trace, and the outcome.  The lock-release in the inner
`finally` appears on both exits of the locked section. -/
def handleViewRpc {V : Type} (registry : PipeRegistry V) (deps : PipeDeps V)
    (hasNext : Bool) (request : PipeRequest V) (store : ViewStore V) :
    ViewStore V × List PipeEvent × PipeOutcome V :=
  match request.paramsKey with
  | none =>
    (store, [],
     PipeOutcome.respond 400 (PipeResponseBody.errorBody "Missing view controller key."))
  | some controllerKey =>
    if controllerKey = "" then
      (store, [],
       PipeOutcome.respond 400 (PipeResponseBody.errorBody "Missing view controller key."))
    else
      match parseRequestBody request with
      | Except.error msg => (store, [], mapPipelineError hasNext msg)
      | Except.ok (methodKey, args) =>
        match resolveCallable registry controllerKey methodKey with
        | Except.error msg => (store, [], mapPipelineError hasNext msg)
        | Except.ok (entry, callable) =>
          match deps.requireSession request with
          | Except.error msg =>
            (store, [PipeEvent.authenticate], mapPipelineError hasNext msg)
          | Except.ok sessionResult =>
            match assertRoleAccess entry callable sessionResult.sessionInfo.roles with
            | Except.error msg =>
              (store, [PipeEvent.authenticate, PipeEvent.roleCheck],
               mapPipelineError hasNext msg)
            | Except.ok _ =>
              match lockedSection deps entry callable args sessionResult
                  controllerKey store with
              | (store1, events, Except.ok responseBody) =>
                (store1,
                 [PipeEvent.authenticate, PipeEvent.roleCheck,
                   PipeEvent.lockAcquire sessionResult.sessionInfo.sessionId controllerKey] ++
                   events ++ [PipeEvent.lockRelease],
                 PipeOutcome.respond 200 responseBody)
              | (store1, events, Except.error msg) =>
                (store1,
                 [PipeEvent.authenticate, PipeEvent.roleCheck,
                   PipeEvent.lockAcquire sessionResult.sessionInfo.sessionId controllerKey] ++
                   events ++ [PipeEvent.lockRelease],
                 mapPipelineError hasNext msg)

/-- Replaces every callable's declared `allowUnauthenticated` flag across a
registry (used to state that the pipeline never consults the flag). -/
def overrideFlags {V : Type} (flags : String → String → Option Bool)
    (registry : PipeRegistry V) : PipeRegistry V :=
  fun key =>
    (registry key).map (fun entry =>
      { entry with
          callables := entry.callables.map (fun c =>
            { c with config := { c.config with
                allowUnauthenticated := flags key c.config.key } }) })

/-- Trace-order check: scanning the trace left to right, the event `a` is
hit before any event from `bs` (true also when neither ever occurs). -/
def precedes (a : PipeEvent) (bs : List PipeEvent) : List PipeEvent → Bool
  | [] => true
  | e :: rest => if e ∈ bs then false else if e = a then true else precedes a bs rest

/-! Section: Token service theorems -/

/-- Embeds `verifyToken` on a token produced by `signToken` with the same config:
the recomputed HMAC matches and the embedded issuer / audience match the
config, so the outcome is decided by the expiry check alone. -/
theorem verifyToken_signToken (config : IJwtTokenServiceConfig) (claims : IJwtClaims)
    (typ : String) (now : Int) :
    verifyToken config now (signToken config claims typ).token =
      if claims.exp * 1000 < now then Except.error "Token expired."
      else Except.ok { claims := claims, typ := typ, iss := config.issuer, aud := config.audience } := by
  simp [verifyToken, signToken, hmacSign]

/-- C7 (amended): a refresh-typed token never verifies as an access token
and vice versa; when the token is unexpired at verification time the
failure is exactly the invalid-token-type error (an expired cross-typed
token fails with `Token expired.` instead, since the expiry check runs
before the type-discriminator check). -/
theorem jwt_cross_type_never_verifies (config : IJwtTokenServiceConfig)
    (claims : IJwtClaims) (now : Int) :
    (∀ c : IJwtClaims,
      verifyAccessToken config now (signRefreshToken config claims).token ≠ Except.ok c) ∧
    (∀ c : IJwtClaims,
      verifyRefreshToken config now (signAccessToken config claims).token ≠ Except.ok c) ∧
    (now ≤ claims.exp * 1000 →
      verifyAccessToken config now (signRefreshToken config claims).token =
        Except.error "Invalid token type." ∧
      verifyRefreshToken config now (signAccessToken config claims).token =
        Except.error "Invalid token type.") := by
  have hacc := verifyToken_signToken config claims "access" now
  have href := verifyToken_signToken config claims "refresh" now
  by_cases hexp : claims.exp * 1000 < now
  · rw [if_pos hexp] at hacc href
    refine ⟨?_, ?_, ?_⟩
    · intro c
      simp [verifyAccessToken, signRefreshToken, href]
    · intro c
      simp [verifyRefreshToken, signAccessToken, hacc]
    · intro hle
      exact absurd hexp (not_lt.mpr hle)
  · rw [if_neg hexp] at hacc href
    refine ⟨?_, ?_, ?_⟩
    · intro c
      simp [verifyAccessToken, signRefreshToken, href]
    · intro c
      simp [verifyRefreshToken, signAccessToken, hacc]
    · intro _
      constructor
      · simp [verifyAccessToken, signRefreshToken, href]
      · simp [verifyRefreshToken, signAccessToken, hacc]

/-- Witness for C7: at a concrete unexpired token both cross-verifications
fail with the invalid-token-type error. -/
theorem jwt_cross_type_never_verifies_witness :
    verifyAccessToken ⟨"s", none, none⟩ 0
        (signRefreshToken ⟨"s", none, none⟩ ⟨"u", "sid", [], 10⟩).token =
      Except.error "Invalid token type." ∧
    verifyRefreshToken ⟨"s", none, none⟩ 0
        (signAccessToken ⟨"s", none, none⟩ ⟨"u", "sid", [], 10⟩).token =
      Except.error "Invalid token type." :=
  (jwt_cross_type_never_verifies ⟨"s", none, none⟩ ⟨"u", "sid", [], 10⟩ 0).2.2 (by decide)

/-- Counterexample to C7 as stated: for an already-expired claim set the
cross-verification fails with `Token expired.`, not with the
invalid-token-type error. -/
theorem jwt_cross_type_expired_counterexample :
    verifyAccessToken ⟨"s", none, none⟩ 2000
        (signRefreshToken ⟨"s", none, none⟩ ⟨"u", "sid", [], 1⟩).token =
      Except.error "Token expired." ∧
    ¬ (Except.error "Token expired." =
        (Except.error "Invalid token type." : Except String IJwtClaims)) := by
  constructor
  · rfl
  · intro h
    exact absurd (Except.error.inj h) (by decide)

/-- C8 (amended): for a token with a valid signature whose issuer and
audience match the config whenever those checks are enabled, verification
passes the expiry check exactly when `exp * 1000` is at least the current
time, and fails with `Token expired.` exactly when `exp * 1000` is
strictly below the current time (so a token whose expiry equals the
current instant is still accepted). -/
theorem jwt_expiry_check (config : IJwtTokenServiceConfig) (now : Int)
    (header : TokenHeader) (payload : TokenPayload)
    (hiss : optionTruthy config.issuer = true → payload.iss = config.issuer)
    (haud : optionTruthy config.audience = true → payload.aud = config.audience) :
    (now ≤ payload.claims.exp * 1000 →
      verifyToken config now
        { header := header, payload := payload,
          signature := hmacSign config header payload } = Except.ok payload) ∧
    (payload.claims.exp * 1000 < now →
      verifyToken config now
        { header := header, payload := payload,
          signature := hmacSign config header payload } =
        Except.error "Token expired.") := by
  have hissC : ¬ (optionTruthy config.issuer = true ∧ payload.iss ≠ config.issuer) := by
    rintro ⟨h1, h2⟩
    exact h2 (hiss h1)
  have haudC : ¬ (optionTruthy config.audience = true ∧ payload.aud ≠ config.audience) := by
    rintro ⟨h1, h2⟩
    exact h2 (haud h1)
  constructor
  · intro hle
    simp [verifyToken, hissC, haudC, not_lt.mpr hle]
  · intro hlt
    simp [verifyToken, hissC, haudC, hlt]

/-- Witness for C8: a concrete valid-signature token accepted one
millisecond before its expiry instant. -/
theorem jwt_expiry_check_witness :
    verifyToken ⟨"s", none, none⟩ 999
        { header := jwtHeader,
          payload := { claims := ⟨"u", "sid", [], 1⟩, typ := "access", iss := none, aud := none },
          signature := hmacSign ⟨"s", none, none⟩ jwtHeader
            { claims := ⟨"u", "sid", [], 1⟩, typ := "access", iss := none, aud := none } } =
      Except.ok { claims := ⟨"u", "sid", [], 1⟩, typ := "access", iss := none, aud := none } :=
  (jwt_expiry_check ⟨"s", none, none⟩ 999 jwtHeader
    { claims := ⟨"u", "sid", [], 1⟩, typ := "access", iss := none, aud := none }
    (by intro h; exact absurd h (by decide))
    (by intro h; exact absurd h (by decide))).1 (by decide)

/-- Counterexample to C8 as stated: at the exact expiry instant
(`exp * 1000 = now`) the `exp` claim is not strictly greater than the
current time, yet verification succeeds rather than failing with the
expired-token error. -/
theorem jwt_expiry_boundary_counterexample :
    verifyAccessToken ⟨"s", none, none⟩ 1000
        (signAccessToken ⟨"s", none, none⟩ ⟨"u", "sid", [], 1⟩).token =
      Except.ok ⟨"u", "sid", [], 1⟩ ∧
    ¬ ((1 : Int) * 1000 > 1000) := by
  exact ⟨rfl, by decide⟩

/-! Section: Session manager theorem -/

/-- C4: evaluating `requireSession` at a concrete verified access token
shows that the refreshed token pair embeds a freshly generated session id
(`userId + "-" + Date.now()`), not the session id of the incoming token's
claims, while the subject and roles are preserved and the returned
`sessionInfo` keeps the incoming session id. -/
theorem requireSession_regenerates_sessionId :
    ∃ store1 result,
      requireSession ⟨"secret", none, none⟩ ⟨60, 120, ["defaultRole"]⟩ []
          ⟨some ⟨"Bearer", some (signAccessToken ⟨"secret", none, none⟩
            ⟨"user", "user-1000", ["roleA"], 5000⟩).token⟩⟩ 2000 =
        Except.ok (store1, result) ∧
      result.sessionInfo.sessionId = "user-1000" ∧
      result.refreshedTokens.accessToken.payload.claims.sid = "user-2000" ∧
      result.refreshedTokens.refreshToken.payload.claims.sid = "user-2000" ∧
      ¬ ("user-2000" = "user-1000") ∧
      result.refreshedTokens.accessToken.payload.claims.sub = "user" ∧
      result.refreshedTokens.accessToken.payload.claims.roles = ["roleA"] ∧
      result.refreshedTokens.refreshToken.payload.claims.roles = ["roleA"] := by
  exact ⟨_, _, rfl, rfl, by decide, by decide, by decide, rfl, rfl, rfl⟩

/-! Section: Migration runner theorems -/

/-- A successful validation pass implies the version list is strictly
ascending, continuing any previously accepted element. -/
theorem validateMigrationGo_ok_chain (ms : List IMigration) :
    ∀ (seen : List String) (prev : Option IMigration),
    validateMigrationGo seen prev ms = Except.ok () →
    List.Chain' (fun a b => compareVersions a b = Ordering.lt)
      ((Option.map (fun m => m.version) prev).toList ++ ms.map (fun m => m.version)) := by
  induction ms with
  | nil =>
    intro seen prev _
    cases prev <;> simp
  | cons current rest ih =>
    intro seen prev h
    rw [validateMigrationGo.eq_def] at h
    dsimp only at h
    by_cases hc : seen.contains current.version
    · rw [if_pos hc] at h
      exact absurd h (by simp)
    · rw [if_neg hc] at h
      cases prev with
      | none =>
        have := ih (current.version :: seen) (some current) h
        simpa using this
      | some p =>
        dsimp only at h
        by_cases hlt : compareVersions p.version current.version ≠ Ordering.lt
        · rw [if_pos hlt] at h
          exact absurd h (by simp)
        · rw [if_neg hlt] at h
          have hR : compareVersions p.version current.version = Ordering.lt :=
            not_not.mp hlt
          have := ih (current.version :: seen) (some current) h
          simp only [Option.map_some', Option.toList_some, List.singleton_append] at this
          simp only [Option.map_some', Option.toList_some, List.singleton_append,
            List.map_cons]
          exact List.chain'_cons.mpr ⟨hR, this⟩

/-- A successful validation pass implies no duplicate versions, and no
version already present in the `seenVersions` accumulator. -/
theorem validateMigrationGo_ok_nodup (ms : List IMigration) :
    ∀ (seen : List String) (prev : Option IMigration),
    validateMigrationGo seen prev ms = Except.ok () →
    (ms.map (fun m => m.version)).Nodup ∧
      ∀ v ∈ ms.map (fun m => m.version), v ∉ seen := by
  induction ms with
  | nil =>
    intro seen prev _
    simp
  | cons current rest ih =>
    intro seen prev h
    rw [validateMigrationGo.eq_def] at h
    dsimp only at h
    by_cases hc : seen.contains current.version
    · rw [if_pos hc] at h
      exact absurd h (by simp)
    · rw [if_neg hc] at h
      have hcurrent : current.version ∉ seen := fun hmem =>
        hc (List.elem_iff.mpr hmem)
      have key : validateMigrationGo (current.version :: seen) (some current) rest =
          Except.ok () := by
        cases prev with
        | none => exact h
        | some p =>
          dsimp only at h
          by_cases hlt : compareVersions p.version current.version ≠ Ordering.lt
          · rw [if_pos hlt] at h
            exact absurd h (by simp)
          · rw [if_neg hlt] at h
            exact h
      obtain ⟨hnodup, hseen⟩ := ih (current.version :: seen) (some current) key
      refine ⟨List.nodup_cons.mpr ⟨?_, hnodup⟩, ?_⟩
      · intro hmem
        exact (hseen current.version hmem) (by simp)
      · intro v hv
        rcases List.mem_cons.mp hv with hv | hv
        · rw [hv]
          exact hcurrent
        · intro hvseen
          exact (hseen v hv) (List.mem_cons_of_mem _ hvseen)

/-- Every error produced by the validation pass is a
`MigrationValidationError`. -/
theorem validateMigrationGo_error_shape (ms : List IMigration) :
    ∀ (seen : List String) (prev : Option IMigration) (e : MigrationRunError),
    validateMigrationGo seen prev ms = Except.error e →
    ∃ msg, e = MigrationRunError.validation msg := by
  induction ms with
  | nil =>
    intro seen prev e h
    exact absurd h (by simp [validateMigrationGo])
  | cons current rest ih =>
    intro seen prev e h
    rw [validateMigrationGo.eq_def] at h
    dsimp only at h
    by_cases hc : seen.contains current.version
    · rw [if_pos hc] at h
      exact ⟨_, (Except.error.inj h).symm⟩
    · rw [if_neg hc] at h
      cases prev with
      | none => exact ih _ _ _ h
      | some p =>
        dsimp only at h
        by_cases hlt : compareVersions p.version current.version ≠ Ordering.lt
        · rw [if_pos hlt] at h
          exact ⟨_, (Except.error.inj h).symm⟩
        · rw [if_neg hlt] at h
          exact ih _ _ _ h

/-- C6: a migration list containing a duplicate version, or not in strictly
ascending version order, is rejected by the validation pass with a
`MigrationValidationError` before any adapter operation runs: the recorded
adapter-call log is empty and the adapter state is returned untouched. -/
theorem runMigrationPlan_rejects_invalid_ordering {σ : Type}
    (adapter : MigrationAdapter σ) (migrations : List IMigration)
    (targetVersion : Option String) (s0 : σ)
    (h : ¬ (migrations.map (fun m => m.version)).Nodup ∨
      ¬ List.Chain' (fun a b => compareVersions a b = Ordering.lt)
        (migrations.map (fun m => m.version))) :
    ∃ msg, runMigrationPlan adapter migrations targetVersion s0 =
      { state := s0, log := [],
        result := Except.error (MigrationRunError.validation msg) } := by
  have herr : ∃ msg, validateMigrationOrdering migrations =
      Except.error (MigrationRunError.validation msg) := by
    cases hv : validateMigrationOrdering migrations with
    | ok u =>
      cases u
      rcases h with h | h
      · exact absurd (validateMigrationGo_ok_nodup migrations [] none hv).1 h
      · have := validateMigrationGo_ok_chain migrations [] none hv
        simp only [Option.map_none', Option.toList_none, List.nil_append] at this
        exact absurd this h
    | error e =>
      obtain ⟨msg, rfl⟩ := validateMigrationGo_error_shape migrations [] none e hv
      exact ⟨msg, rfl⟩
  obtain ⟨msg, hmsg⟩ := herr
  refine ⟨msg, ?_⟩
  simp [runMigrationPlan, hmsg]

/-- Witness for C6: an out-of-order two-element plan is rejected with an
empty adapter-call log. -/
theorem runMigrationPlan_rejects_invalid_ordering_witness :
    ∃ msg, runMigrationPlan
      (⟨fun s => Except.ok s, fun s => Except.ok (s, []),
        fun _ s => Except.ok s, fun _ s => Except.ok s⟩ : MigrationAdapter Unit)
      [⟨"0002", "two", "sql2", "c2"⟩, ⟨"0001", "one", "sql1", "c1"⟩] none () =
      { state := (), log := [],
        result := Except.error (MigrationRunError.validation msg) } :=
  runMigrationPlan_rejects_invalid_ordering _ _ none ()
    (Or.inr (by
      intro hch
      simp only [List.map_cons, List.map_nil, List.chain'_cons] at hch
      exact absurd hch.1 (by decide)))

/-- A prefix of migrations that are all within the target ceiling and
already applied with matching checksums is skipped without invoking the
adapter, accumulating only `skippedVersions`. -/
theorem runMigrationLoop_skips_clean {σ : Type} (adapter : MigrationAdapter σ)
    (applied : List (String × IAppliedMigration)) (targetVersion : Option String)
    (rest : List IMigration) :
    ∀ (pre : List IMigration) (ls : MigrationLoopState σ),
    (∀ m ∈ pre, targetExceeded targetVersion m.version = false ∧
      ∃ r, lookupApplied applied m.version = some r ∧ r.checksum = m.checksum) →
    runMigrationLoop adapter applied targetVersion (pre ++ rest) ls =
      runMigrationLoop adapter applied targetVersion rest
        { ls with skippedVersions :=
            ls.skippedVersions ++ pre.map (fun m => m.version) } := by
  intro pre
  induction pre with
  | nil =>
    intro ls _
    simp
  | cons m pre ih =>
    intro ls h
    obtain ⟨hT, r, hr, hchk⟩ := h m (by simp)
    have hrest : ∀ m2 ∈ pre, targetExceeded targetVersion m2.version = false ∧
        ∃ r2, lookupApplied applied m2.version = some r2 ∧ r2.checksum = m2.checksum :=
      fun m2 hm2 => h m2 (by simp [hm2])
    rw [List.cons_append, runMigrationLoop, hT]
    simp only [Bool.false_eq_true, if_false, hr]
    rw [if_neg (by simp [hchk])]
    rw [ih _ hrest]
    simp [List.append_assoc]

/-- C5 (amended): when the run reaches a drifted migration — its version is
within the target ceiling, and every migration listed before it is within
the ceiling and already applied with a matching checksum — the run halts
with a `MigrationValidationError` whose message references the drifted
version, and no migration at all (in particular none at or after the
drifted version) is executed or recorded: the adapter log holds exactly the
metadata-table and applied-list reads.  (A drifted version beyond the
target ceiling is never examined: see the counterexample.) -/
theorem runMigrationPlan_checksum_drift {σ : Type} (adapter : MigrationAdapter σ)
    (s0 s1 s2 : σ) (pre post : List IMigration) (drifted : IMigration)
    (rec : IAppliedMigration) (applied : List (String × IAppliedMigration))
    (targetVersion : Option String)
    (hvalid : validateMigrationOrdering (pre ++ drifted :: post) = Except.ok ())
    (hens : adapter.ensureMetadataTable s0 = Except.ok s1)
    (hlist : adapter.listAppliedMigrations s1 = Except.ok (s2, applied))
    (hfound : lookupApplied applied drifted.version = some rec)
    (hdrift : rec.checksum ≠ drifted.checksum)
    (htarget : targetExceeded targetVersion drifted.version = false)
    (hpre : ∀ m ∈ pre, targetExceeded targetVersion m.version = false ∧
      ∃ r, lookupApplied applied m.version = some r ∧ r.checksum = m.checksum) :
    runMigrationPlan adapter (pre ++ drifted :: post) targetVersion s0 =
      { state := s2
        log := [AdapterCall.ensureMetadataTable, AdapterCall.listAppliedMigrations]
        result := Except.error (MigrationRunError.validation
          ("Checksum mismatch for applied migration " ++ drifted.version ++ ".")) } := by
  rw [runMigrationPlan, hvalid]
  simp only [hens, hlist]
  rw [runMigrationLoop_skips_clean adapter applied targetVersion (drifted :: post) pre _ hpre]
  rw [runMigrationLoop, htarget]
  simp only [Bool.false_eq_true, if_false, hfound]
  rw [if_pos hdrift]

/-- Witness for C5: a second run after the second migration's statement
text was mutated (stored checksum `c2`, current checksum `c2x`) fails with
the validation error naming version `0002`, with no migration executed. -/
theorem runMigrationPlan_checksum_drift_witness :
    runMigrationPlan
      (⟨fun s => Except.ok s,
        fun s => Except.ok (s, [("0001", ⟨"0001", "c1", "t"⟩), ("0002", ⟨"0002", "c2", "t"⟩)]),
        fun _ s => Except.ok s, fun _ s => Except.ok s⟩ : MigrationAdapter Unit)
      [⟨"0001", "one", "sql1", "c1"⟩, ⟨"0002", "two", "sql2x", "c2x"⟩] none () =
      { state := ()
        log := [AdapterCall.ensureMetadataTable, AdapterCall.listAppliedMigrations]
        result := Except.error (MigrationRunError.validation
          ("Checksum mismatch for applied migration " ++ "0002" ++ ".")) } :=
  runMigrationPlan_checksum_drift _ () () ()
    [⟨"0001", "one", "sql1", "c1"⟩] [] ⟨"0002", "two", "sql2x", "c2x"⟩
    ⟨"0002", "c2", "t"⟩ [("0001", ⟨"0001", "c1", "t"⟩), ("0002", ⟨"0002", "c2", "t"⟩)] none
    rfl rfl rfl rfl (by decide) rfl
    (by
      intro m hm
      rw [List.mem_singleton] at hm
      subst hm
      exact ⟨rfl, ⟨"0001", "c1", "t"⟩, rfl, rfl⟩)

/-- Counterexample to C5 as stated: the same drifted plan run with a target
ceiling of `0001` never examines the drifted version `0002` — the run
succeeds with no validation error, even though an applied migration's
stored checksum differs from its current definition. -/
theorem runMigrationPlan_drift_beyond_target_counterexample :
    lookupApplied [("0001", ⟨"0001", "c1", "t"⟩), ("0002", ⟨"0002", "c2", "t"⟩)] "0002" =
      some ⟨"0002", "c2", "t"⟩ ∧
    ¬ ("c2" = "c2x") ∧
    runMigrationPlan
      (⟨fun s => Except.ok s,
        fun s => Except.ok (s, [("0001", ⟨"0001", "c1", "t"⟩), ("0002", ⟨"0002", "c2", "t"⟩)]),
        fun _ s => Except.ok s, fun _ s => Except.ok s⟩ : MigrationAdapter Unit)
      [⟨"0001", "one", "sql1", "c1"⟩, ⟨"0002", "two", "sql2x", "c2x"⟩] (some "0001") () =
      { state := ()
        log := [AdapterCall.ensureMetadataTable, AdapterCall.listAppliedMigrations]
        result := Except.ok
          { appliedVersions := [], skippedVersions := ["0001"], currentVersion := "0001" } } := by
  exact ⟨by decide, by decide, rfl⟩

/-! Section: RPC pipeline theorems -/

/-- Embeds `hasRequiredRole` semantics: an absent or empty constraint imposes no
restriction, and a non-empty constraint is satisfied exactly when some role
is shared with the session's (possibly absent, hence empty) role set. -/
theorem hasRequiredRole_iff (sessionRoles allowedRoles : Option (List String)) :
    hasRequiredRole sessionRoles allowedRoles = true ↔
      (allowedRoles.getD [] = [] ∨
        ∃ role ∈ allowedRoles.getD [], role ∈ sessionRoles.getD []) := by
  cases allowedRoles with
  | none => simp [hasRequiredRole]
  | some allowed =>
    by_cases ha : allowed.length = 0
    · rw [List.length_eq_zero] at ha
      simp [hasRequiredRole, ha]
    · have hne : ¬ allowed = [] := by
        intro h
        exact ha (by simp [h])
      cases sessionRoles with
      | none => simp [hasRequiredRole, ha, hne]
      | some roles =>
        by_cases hr : roles.length = 0
        · rw [List.length_eq_zero] at hr
          simp [hasRequiredRole, ha, hr, hne]
        · simp only [hasRequiredRole, if_neg ha, if_neg hr, Option.getD_some]
          rw [List.any_eq_true]
          constructor
          · rintro ⟨role, hmem, hcont⟩
            exact Or.inr ⟨role, hmem, List.elem_iff.mp hcont⟩
          · rintro (h | ⟨role, hmem, hin⟩)
            · exact absurd h hne
            · exact ⟨role, hmem, List.elem_iff.mpr hin⟩

/-- When both constraints hold, `assertRoleAccess` succeeds. -/
theorem assertRoleAccess_ok {V : Type} (entry : PipeControllerEntry V)
    (callable : PipeCallableMetadata) (sessionRoles : Option (List String))
    (hc : hasRequiredRole sessionRoles entry.config.roles = true)
    (hm : hasRequiredRole sessionRoles callable.config.allowedRoles = true) :
    assertRoleAccess entry callable sessionRoles = Except.ok () := by
  simp [assertRoleAccess, hc, hm]

/-- When either constraint fails, `assertRoleAccess` throws `Forbidden.`. -/
theorem assertRoleAccess_forbidden {V : Type} (entry : PipeControllerEntry V)
    (callable : PipeCallableMetadata) (sessionRoles : Option (List String))
    (h : ¬ (hasRequiredRole sessionRoles entry.config.roles = true ∧
      hasRequiredRole sessionRoles callable.config.allowedRoles = true)) :
    assertRoleAccess entry callable sessionRoles = Except.error "Forbidden." := by
  by_cases hc : hasRequiredRole sessionRoles entry.config.roles = true
  · have hm : ¬ hasRequiredRole sessionRoles callable.config.allowedRoles = true :=
      fun hm => h ⟨hc, hm⟩
    unfold assertRoleAccess
    rw [if_pos hc, if_neg hm]
  · unfold assertRoleAccess
    rw [if_neg hc]

/-- C2: for an authenticated call, access requires both the
controller-level and the callable-level allowed-roles constraints (each
absent or empty constraint is open, and a non-empty one requires a shared
role); a failed check yields `403 {error: "Forbidden."}` (the raw error
when a downstream channel is wired) with the role check occurring after
authentication and no lock ever acquired, while a passing check proceeds
directly to the lock acquisition. -/
theorem rpc_role_authorization {V : Type} (registry : PipeRegistry V)
    (deps : PipeDeps V) (request : PipeRequest V) (store : ViewStore V)
    (controllerKey methodKey : String) (args : V)
    (entry : PipeControllerEntry V) (callable : PipeCallableMetadata)
    (sessionResult : PipeSessionResult)
    (hkey : request.paramsKey = some controllerKey)
    (hck : ¬ controllerKey = "")
    (hparse : parseRequestBody request = Except.ok (methodKey, args))
    (hresolve : resolveCallable registry controllerKey methodKey =
      Except.ok (entry, callable))
    (hsession : deps.requireSession request = Except.ok sessionResult) :
    (∀ sessionRoles allowedRoles : Option (List String),
      hasRequiredRole sessionRoles allowedRoles = true ↔
        (allowedRoles.getD [] = [] ∨
          ∃ role ∈ allowedRoles.getD [], role ∈ sessionRoles.getD [])) ∧
    (¬ (hasRequiredRole sessionResult.sessionInfo.roles entry.config.roles = true ∧
        hasRequiredRole sessionResult.sessionInfo.roles callable.config.allowedRoles = true) →
      handleViewRpc registry deps false request store =
        (store, [PipeEvent.authenticate, PipeEvent.roleCheck],
          PipeOutcome.respond 403 (PipeResponseBody.errorBody "Forbidden.")) ∧
      handleViewRpc registry deps true request store =
        (store, [PipeEvent.authenticate, PipeEvent.roleCheck],
          PipeOutcome.forward "Forbidden.")) ∧
    ((hasRequiredRole sessionResult.sessionInfo.roles entry.config.roles = true ∧
      hasRequiredRole sessionResult.sessionInfo.roles callable.config.allowedRoles = true) →
      ∀ hasNext : Bool, ∃ (store1 : ViewStore V) (restEvents : List PipeEvent)
        (outcome : PipeOutcome V),
        handleViewRpc registry deps hasNext request store =
          (store1,
           PipeEvent.authenticate :: PipeEvent.roleCheck ::
             PipeEvent.lockAcquire sessionResult.sessionInfo.sessionId controllerKey ::
             restEvents,
           outcome)) := by
  refine ⟨hasRequiredRole_iff, ?_, ?_⟩
  · intro h
    have hforbidden := assertRoleAccess_forbidden entry callable
      sessionResult.sessionInfo.roles h
    constructor
    · rw [handleViewRpc, hkey]
      simp only [if_neg hck, hparse, hresolve, hsession, hforbidden]
      rfl
    · rw [handleViewRpc, hkey]
      simp only [if_neg hck, hparse, hresolve, hsession, hforbidden]
      rfl
  · rintro ⟨hc, hm⟩ hasNext
    have hok := assertRoleAccess_ok entry callable sessionResult.sessionInfo.roles hc hm
    rcases hLS : lockedSection deps entry callable args sessionResult controllerKey store
      with ⟨store1, events, res⟩
    cases res with
    | error msg =>
      refine ⟨store1, events ++ [PipeEvent.lockRelease], mapPipelineError hasNext msg, ?_⟩
      rw [handleViewRpc, hkey]
      simp [if_neg hck, hparse, hresolve, hsession, hok, hLS]
    | ok body =>
      refine ⟨store1, events ++ [PipeEvent.lockRelease], PipeOutcome.respond 200 body, ?_⟩
      rw [handleViewRpc, hkey]
      simp [if_neg hck, hparse, hresolve, hsession, hok, hLS]

/-- Witness for C2: a session holding role `x` calling a callable that
requires role `y` receives `403 {error: "Forbidden."}` after
authentication, with no lock acquired. -/
theorem rpc_role_authorization_witness :
    handleViewRpc (V := Nat)
      (fun k => if k = "view1" then
        some ⟨⟨"view1", none⟩, ⟨none, none, none, []⟩, [⟨⟨"m1", some ["y"], none⟩, "m1"⟩]⟩
        else none)
      ⟨fun _ => Except.ok ⟨⟨"u", "s", some ["x"]⟩, none⟩, "rid"⟩
      false
      ⟨some "view1", some ⟨some "m1", 0⟩⟩
      [] =
      ([], [PipeEvent.authenticate, PipeEvent.roleCheck],
        PipeOutcome.respond 403 (PipeResponseBody.errorBody "Forbidden.")) :=
  ((rpc_role_authorization _ _ _ []
    "view1" "m1" 0 _ _ _
    (by rfl) (by decide) (by rfl) (by rfl) (by rfl)).2.1
    (by
      intro hand
      have := hand.2
      simp [hasRequiredRole] at this)).1

/-- Prepending events that are neither the target nor blockers does not
change a trace-order check. -/
theorem precedes_append_left (a : PipeEvent) (bs p l : List PipeEvent)
    (ha : a ∉ p) (hbs : ∀ b ∈ bs, b ∉ p) :
    precedes a bs (p ++ l) = precedes a bs l := by
  induction p with
  | nil => rfl
  | cons e p ih =>
    have he1 : ¬ e ∈ bs := fun h => hbs e h (by simp)
    have he2 : ¬ e = a := fun h => ha (by simp [h])
    rw [List.cons_append, precedes, if_neg he1, if_neg he2]
    exact ih (fun h => ha (List.mem_cons_of_mem _ h))
      (fun b hb hmem => hbs b hb (List.mem_cons_of_mem _ hmem))

/-- A trace-order check that already hit its target is unaffected by
appended events. -/
theorem precedes_append_right (a : PipeEvent) (bs l l2 : List PipeEvent)
    (h : precedes a bs l = true) (hmem : a ∈ l) :
    precedes a bs (l ++ l2) = true := by
  induction l with
  | nil => cases hmem
  | cons e rest ih =>
    by_cases h1 : e ∈ bs
    · rw [precedes, if_pos h1] at h
      cases h
    · by_cases h2 : e = a
      · rw [List.cons_append, precedes, if_neg h1, if_pos h2]
      · rw [precedes, if_neg h1, if_neg h2] at h
        have hmem2 : a ∈ rest := by
          rcases List.mem_cons.mp hmem with h3 | h3
          · exact absurd h3.symm h2
          · exact h3
        rw [List.cons_append, precedes, if_neg h1, if_neg h2]
        exact ih h hmem2

/-- A successful trace-order check splits the trace at the target, with no
blocker occurring before it. -/
theorem precedes_split (a : PipeEvent) (bs l : List PipeEvent)
    (h : precedes a bs l = true) (hmem : a ∈ l) :
    ∃ p q, l = p ++ a :: q ∧ ∀ b ∈ bs, b ∉ p := by
  induction l with
  | nil => cases hmem
  | cons e rest ih =>
    by_cases h1 : e ∈ bs
    · rw [precedes, if_pos h1] at h
      cases h
    · by_cases h2 : e = a
      · exact ⟨[], rest, by simp [h2], by simp⟩
      · rw [precedes, if_neg h1, if_neg h2] at h
        have hmem2 : a ∈ rest := by
          rcases List.mem_cons.mp hmem with h3 | h3
          · exact absurd h3.symm h2
          · exact h3
        obtain ⟨p, q, hpq, hb⟩ := ih h hmem2
        refine ⟨e :: p, q, by rw [List.cons_append, hpq], ?_⟩
        intro b hbmem
        rw [List.mem_cons]
        rintro (h3 | h3)
        · rw [h3] at hbmem
          exact h1 hbmem
        · exact hb b hbmem h3

/-- Embeds `find?` over the upsert's in-place rewrite: the first matching record
becomes the replaced one. -/
theorem find?_upsert_map {V : Type} (sessionId viewKey : String) (v : V) :
    ∀ (l : List ((String × String) × V)),
    ((l.map (fun e => if e.1 = (sessionId, viewKey) then ((sessionId, viewKey), v) else e)).find?
        (fun e => e.1 = (sessionId, viewKey))) =
      (l.find? (fun e => e.1 = (sessionId, viewKey))).map
        (fun _ => ((sessionId, viewKey), v)) := by
  intro l
  induction l with
  | nil => rfl
  | cons e rest ih =>
    by_cases he : e.1 = (sessionId, viewKey)
    · rw [List.map_cons, if_pos he,
        List.find?_cons_of_pos _ (by simp),
        List.find?_cons_of_pos _ (by simp [he])]
      rfl
    · rw [List.map_cons, if_neg he,
        List.find?_cons_of_neg _ (by simp [he]),
        List.find?_cons_of_neg _ (by simp [he])]
      exact ih

/-- The store contract: a just-saved record is loadable. -/
theorem viewStoreLoad_save {V : Type} (store : ViewStore V)
    (sessionId viewKey : String) (v : V) :
    viewStoreLoad (viewStoreSave store sessionId viewKey v) sessionId viewKey = some v := by
  unfold viewStoreSave
  by_cases hs : (store.find? (fun e => e.1 = (sessionId, viewKey))).isSome
  · rw [if_pos hs]
    unfold viewStoreLoad
    rw [find?_upsert_map]
    obtain ⟨x, hx⟩ := Option.isSome_iff_exists.mp hs
    rw [hx]
    rfl
  · rw [if_neg hs]
    unfold viewStoreLoad
    rw [List.find?_append, Option.not_isSome_iff_eq_none.mp hs,
      List.find?_cons_of_pos _ (by simp)]
    rfl

/-- Embeds `loadOrCreateViewData` on a fresh pair with a present initializer:
one load miss, one initializer invocation, one immediate persist. -/
theorem loadOrCreateViewData_fresh {V : Type} (entry : PipeControllerEntry V)
    (baseContext : PipeContextBase) (sessionId controllerKey : String)
    (store : ViewStore V) (f : PipeContextBase → Except String V) (v0 : V)
    (hload : viewStoreLoad store sessionId controllerKey = none)
    (hcreate : entry.controller.createViewData = some f)
    (hf : f baseContext = Except.ok v0) :
    loadOrCreateViewData entry baseContext sessionId controllerKey store =
      (viewStoreSave store sessionId controllerKey v0,
       [PipeEvent.loadRecord, PipeEvent.initializerInvoke, PipeEvent.saveInitialState],
       Except.ok v0) := by
  unfold loadOrCreateViewData
  rw [hload]
  dsimp only
  rw [hcreate]
  dsimp only
  rw [hf]

/-- Embeds `loadOrCreateViewData` on a fresh pair without an initializer throws
the initializer-missing error. -/
theorem loadOrCreateViewData_missing {V : Type} (entry : PipeControllerEntry V)
    (baseContext : PipeContextBase) (sessionId controllerKey : String)
    (store : ViewStore V)
    (hload : viewStoreLoad store sessionId controllerKey = none)
    (hcreate : entry.controller.createViewData = none) :
    loadOrCreateViewData entry baseContext sessionId controllerKey store =
      (store, [PipeEvent.loadRecord], Except.error "ViewData initializer missing.") := by
  unfold loadOrCreateViewData
  rw [hload]
  dsimp only
  rw [hcreate]

/-- Embeds `loadOrCreateViewData` on a persisted pair returns the stored state
without touching the initializer. -/
theorem loadOrCreateViewData_present {V : Type} (entry : PipeControllerEntry V)
    (baseContext : PipeContextBase) (sessionId controllerKey : String)
    (store : ViewStore V) (v : V)
    (hload : viewStoreLoad store sessionId controllerKey = some v) :
    loadOrCreateViewData entry baseContext sessionId controllerKey store =
      (store, [PipeEvent.loadRecord], Except.ok v) := by
  unfold loadOrCreateViewData
  rw [hload]

/-- Trace facts of the locked section on a fresh pair whose initializer
succeeds: the initializer runs exactly once and the initial persist occurs
before any before-call hook or method invocation. -/
theorem lockedSection_fresh {V : Type} (deps : PipeDeps V)
    (entry : PipeControllerEntry V) (callable : PipeCallableMetadata) (args : V)
    (sessionResult : PipeSessionResult) (controllerKey : String) (store : ViewStore V)
    (f : PipeContextBase → Except String V) (v0 : V)
    (hauth : entry.controller.authorize = none ∨
      ∃ hook, entry.controller.authorize = some hook ∧
        hook { requestId := deps.requestId, sessionInfo := sessionResult.sessionInfo } =
          Except.ok ())
    (hload : viewStoreLoad store sessionResult.sessionInfo.sessionId controllerKey = none)
    (hcreate : entry.controller.createViewData = some f)
    (hf : f { requestId := deps.requestId, sessionInfo := sessionResult.sessionInfo } =
      Except.ok v0) :
    (lockedSection deps entry callable args sessionResult controllerKey store).2.1.count
      PipeEvent.initializerInvoke = 1 ∧
    PipeEvent.saveInitialState ∈
      (lockedSection deps entry callable args sessionResult controllerKey store).2.1 ∧
    precedes PipeEvent.saveInitialState [PipeEvent.beforeCallHook, PipeEvent.methodInvoke]
      (lockedSection deps entry callable args sessionResult controllerKey store).2.1 = true := by
  have hLoad := loadOrCreateViewData_fresh entry
    { requestId := deps.requestId, sessionInfo := sessionResult.sessionInfo }
    sessionResult.sessionInfo.sessionId controllerKey store f v0 hload hcreate hf
  rcases hauth with hnone | ⟨hook, hsome, hok2⟩
  · refine ⟨?_, ?_, ?_⟩ <;>
      (simp only [lockedSection, hnone, hLoad];
       cases hrt : sessionResult.refreshedTokens <;>
         cases hbc : entry.controller.onBeforeCall <;>
           (dsimp only; repeat' split) <;> (dsimp only; decide))
  · refine ⟨?_, ?_, ?_⟩ <;>
      (simp only [lockedSection, hsome, hok2, hLoad];
       cases hrt : sessionResult.refreshedTokens <;>
         cases hbc : entry.controller.onBeforeCall <;>
           (dsimp only; repeat' split) <;> (dsimp only; decide))

/-- The locked section's thrown error on a fresh pair whose controller has
no initializer. -/
theorem lockedSection_missing_initializer {V : Type} (deps : PipeDeps V)
    (entry : PipeControllerEntry V) (callable : PipeCallableMetadata) (args : V)
    (sessionResult : PipeSessionResult) (controllerKey : String) (store : ViewStore V)
    (hauth : entry.controller.authorize = none ∨
      ∃ hook, entry.controller.authorize = some hook ∧
        hook { requestId := deps.requestId, sessionInfo := sessionResult.sessionInfo } =
          Except.ok ())
    (hload : viewStoreLoad store sessionResult.sessionInfo.sessionId controllerKey = none)
    (hcreate : entry.controller.createViewData = none) :
    (lockedSection deps entry callable args sessionResult controllerKey store).2.2 =
      Except.error "ViewData initializer missing." := by
  have hLoad := loadOrCreateViewData_missing entry
    { requestId := deps.requestId, sessionInfo := sessionResult.sessionInfo }
    sessionResult.sessionInfo.sessionId controllerKey store hload hcreate
  rcases hauth with hnone | ⟨hook, hsome, hok2⟩
  · simp only [lockedSection, hnone, hLoad]
  · simp only [lockedSection, hsome, hok2, hLoad]

/-- C3 (amended): for a call reaching hydration on a (sessionId, viewKey)
pair with no persisted record: a controller without a state-initializer
fails with `500 {error: "ViewData initializer missing."}`; otherwise the
initializer runs exactly once and its result is persisted before the
before-call hook or the target method runs (the `authorize` lifecycle hook
runs earlier, before hydration — see the counterexample), and a later call
that finds a persisted record never invokes the initializer and uses the
deserialized stored state. -/
theorem rpc_state_initializer_lifecycle {V : Type} (registry : PipeRegistry V)
    (deps : PipeDeps V) (request : PipeRequest V) (store : ViewStore V)
    (controllerKey methodKey : String) (args : V)
    (entry : PipeControllerEntry V) (callable : PipeCallableMetadata)
    (sessionResult : PipeSessionResult) (hasNext : Bool)
    (hkey : request.paramsKey = some controllerKey)
    (hck : ¬ controllerKey = "")
    (hparse : parseRequestBody request = Except.ok (methodKey, args))
    (hresolve : resolveCallable registry controllerKey methodKey =
      Except.ok (entry, callable))
    (hsession : deps.requireSession request = Except.ok sessionResult)
    (hroles : assertRoleAccess entry callable sessionResult.sessionInfo.roles =
      Except.ok ())
    (hauth : entry.controller.authorize = none ∨
      ∃ hook, entry.controller.authorize = some hook ∧
        hook { requestId := deps.requestId, sessionInfo := sessionResult.sessionInfo } =
          Except.ok ())
    (hload : viewStoreLoad store sessionResult.sessionInfo.sessionId controllerKey = none) :
    (entry.controller.createViewData = none →
      (handleViewRpc registry deps false request store).2.2 =
        PipeOutcome.respond 500
          (PipeResponseBody.errorBody "ViewData initializer missing.")) ∧
    (∀ (f : PipeContextBase → Except String V) (v0 : V),
      entry.controller.createViewData = some f →
      f { requestId := deps.requestId, sessionInfo := sessionResult.sessionInfo } =
        Except.ok v0 →
      ((handleViewRpc registry deps hasNext request store).2.1.count
          PipeEvent.initializerInvoke = 1 ∧
       (∃ p q, (handleViewRpc registry deps hasNext request store).2.1 =
          p ++ PipeEvent.saveInitialState :: q ∧
          PipeEvent.beforeCallHook ∉ p ∧ PipeEvent.methodInvoke ∉ p) ∧
       viewStoreLoad
         (viewStoreSave store sessionResult.sessionInfo.sessionId controllerKey v0)
         sessionResult.sessionInfo.sessionId controllerKey = some v0)) ∧
    (∀ (store2 : ViewStore V) (v : V),
      viewStoreLoad store2 sessionResult.sessionInfo.sessionId controllerKey = some v →
      loadOrCreateViewData entry
        { requestId := deps.requestId, sessionInfo := sessionResult.sessionInfo }
        sessionResult.sessionInfo.sessionId controllerKey store2 =
        (store2, [PipeEvent.loadRecord], Except.ok v)) := by
  refine ⟨?_, ?_, ?_⟩
  · intro hcreate
    rcases hLS : lockedSection deps entry callable args sessionResult controllerKey store
      with ⟨st1, ev, res⟩
    have hres : res = Except.error "ViewData initializer missing." := by
      have h := lockedSection_missing_initializer deps entry callable args sessionResult
        controllerKey store hauth hload hcreate
      rw [hLS] at h
      exact h
    subst hres
    rw [handleViewRpc, hkey]
    simp only [if_neg hck, hparse, hresolve, hsession, hroles, hLS]
    rfl
  · intro f v0 hcreate hf
    obtain ⟨hcount, hmem, hprec⟩ := lockedSection_fresh deps entry callable args
      sessionResult controllerKey store f v0 hauth hload hcreate hf
    rcases hLS : lockedSection deps entry callable args sessionResult controllerKey store
      with ⟨st1, ev, res⟩
    rw [hLS] at hcount hmem hprec
    dsimp only at hcount hmem hprec
    have hT : (handleViewRpc registry deps hasNext request store).2.1 =
        [PipeEvent.authenticate, PipeEvent.roleCheck,
          PipeEvent.lockAcquire sessionResult.sessionInfo.sessionId controllerKey] ++
          ev ++ [PipeEvent.lockRelease] := by
      cases res with
      | error msg =>
        rw [handleViewRpc, hkey]
        simp only [if_neg hck, hparse, hresolve, hsession, hroles, hLS]
      | ok body =>
        rw [handleViewRpc, hkey]
        simp only [if_neg hck, hparse, hresolve, hsession, hroles, hLS]
    have h1 : ([PipeEvent.authenticate, PipeEvent.roleCheck,
        PipeEvent.lockAcquire sessionResult.sessionInfo.sessionId controllerKey]).count
        PipeEvent.initializerInvoke = 0 := rfl
    have h2 : ([PipeEvent.lockRelease]).count PipeEvent.initializerInvoke = 0 := rfl
    refine ⟨?_, ?_, viewStoreLoad_save store _ _ v0⟩
    · rw [hT, List.count_append, List.count_append, h1, h2, hcount]
    · have hTprec : precedes PipeEvent.saveInitialState
          [PipeEvent.beforeCallHook, PipeEvent.methodInvoke]
          ((handleViewRpc registry deps hasNext request store).2.1) = true := by
        rw [hT, List.append_assoc]
        rw [precedes_append_left _ _ _ _ (by simp)
          (by
            intro b hb
            simp only [List.mem_cons, List.not_mem_nil, or_false] at hb
            rcases hb with rfl | rfl <;> simp)]
        exact precedes_append_right _ _ _ _ hprec hmem
      have hTmem : PipeEvent.saveInitialState ∈
          (handleViewRpc registry deps hasNext request store).2.1 := by
        rw [hT]
        exact List.mem_append_left _ (List.mem_append_right _ hmem)
      obtain ⟨p, q, hpq, hb⟩ := precedes_split _ _ _ hTprec hTmem
      exact ⟨p, q, hpq, hb _ (by simp), hb _ (by simp)⟩
  · intro store2 v hv
    exact loadOrCreateViewData_present entry _ _ _ store2 v hv

/-- Witness for C3: a fresh counter view initializes exactly once and the
initialized state is immediately loadable from the store. -/
theorem rpc_state_initializer_lifecycle_witness :
    (handleViewRpc (V := Nat)
      (fun k => if k = "v" then
        some ⟨⟨"v", none⟩,
          ⟨some (fun _ => Except.ok 7), none, none,
           [("m1", fun _ ctx => Except.ok (0, ctx.viewData))]⟩,
          [⟨⟨"m1", none, none⟩, "m1"⟩]⟩
        else none)
      ⟨fun _ => Except.ok ⟨⟨"u", "s", none⟩, none⟩, "rid"⟩
      false ⟨some "v", some ⟨some "m1", 0⟩⟩ []).2.1.count
      PipeEvent.initializerInvoke = 1 ∧
    viewStoreLoad (viewStoreSave ([] : ViewStore Nat) "s" "v" 7) "s" "v" = some 7 := by
  have h := (rpc_state_initializer_lifecycle
    (fun k => if k = "v" then
      some ⟨⟨"v", none⟩,
        ⟨some (fun _ => Except.ok 7), none, none,
         [("m1", fun _ ctx => Except.ok (0, ctx.viewData))]⟩,
        [⟨⟨"m1", none, none⟩, "m1"⟩]⟩
      else none)
    ⟨fun _ => Except.ok ⟨⟨"u", "s", none⟩, none⟩, "rid"⟩
    ⟨some "v", some ⟨some "m1", 0⟩⟩ []
    "v" "m1" 0 _ _ ⟨⟨"u", "s", none⟩, none⟩ false
    rfl (by decide) rfl (by rfl) rfl (by rfl)
    (Or.inl (by rfl)) rfl).2.1
    (fun _ => Except.ok 7) 7 (by rfl) (by rfl)
  exact ⟨h.1, h.2.2⟩

/-- Counterexample to C3 as stated: with an `authorize` lifecycle hook
present, the hook runs strictly before the freshly created state is
persisted (the claim asserts the persist happens before any lifecycle hook
runs). -/
theorem rpc_initial_persist_after_authorize_counterexample :
    (handleViewRpc (V := Nat)
      (fun k => if k = "v" then
        some ⟨⟨"v", none⟩,
          ⟨some (fun _ => Except.ok 7), some (fun _ => Except.ok ()), none,
           [("m1", fun _ ctx => Except.ok (0, ctx.viewData))]⟩,
          [⟨⟨"m1", none, none⟩, "m1"⟩]⟩
        else none)
      ⟨fun _ => Except.ok ⟨⟨"u", "s", none⟩, none⟩, "rid"⟩
      false ⟨some "v", some ⟨some "m1", 0⟩⟩ []).2.1 =
      [PipeEvent.authenticate, PipeEvent.roleCheck, PipeEvent.lockAcquire "s" "v",
       PipeEvent.authorizeHook, PipeEvent.loadRecord, PipeEvent.initializerInvoke,
       PipeEvent.saveInitialState, PipeEvent.methodInvoke, PipeEvent.savePersistedState,
       PipeEvent.lockRelease] ∧
    precedes PipeEvent.saveInitialState [PipeEvent.authorizeHook]
      [PipeEvent.authenticate, PipeEvent.roleCheck, PipeEvent.lockAcquire "s" "v",
       PipeEvent.authorizeHook, PipeEvent.loadRecord, PipeEvent.initializerInvoke,
       PipeEvent.saveInitialState, PipeEvent.methodInvoke, PipeEvent.savePersistedState,
       PipeEvent.lockRelease] = false :=
  ⟨rfl, rfl⟩

/-- The catch-block mapping never produces a success response. -/
theorem mapPipelineError_ne_200 {V : Type} (hasNext : Bool) (message : String)
    (body : PipeResponseBody V) :
    mapPipelineError hasNext message ≠ PipeOutcome.respond 200 body := by
  unfold mapPipelineError
  split_ifs <;> intro h <;> simp at h

/-- Resolving against a registry whose `allowUnauthenticated` flags were
rewritten yields the same entry and callable up to those flags. -/
theorem resolveCallable_overrideFlags {V : Type} (flags : String → String → Option Bool)
    (registry : PipeRegistry V) (controllerKey methodKey : String) :
    resolveCallable (overrideFlags flags registry) controllerKey methodKey =
      (resolveCallable registry controllerKey methodKey).map (fun rc =>
        ({ rc.1 with callables := rc.1.callables.map (fun c =>
            { c with config := { c.config with
                allowUnauthenticated := flags controllerKey c.config.key } }) },
         { rc.2 with config := { rc.2.config with
             allowUnauthenticated := flags controllerKey rc.2.config.key } })) := by
  unfold resolveCallable overrideFlags
  cases hreg : registry controllerKey with
  | none => rfl
  | some entry =>
    simp only [Option.map_some']
    rw [List.find?_map]
    have hcomp : ((fun (item : PipeCallableMetadata) => decide (item.config.key = methodKey)) ∘
        (fun c => { c with config := { c.config with
            allowUnauthenticated := flags controllerKey c.config.key } })) =
        (fun (item : PipeCallableMetadata) => decide (item.config.key = methodKey)) := rfl
    rw [hcomp]
    cases hfind : entry.callables.find? (fun item => item.config.key = methodKey) with
    | none => rfl
    | some c => rfl

/-- C10: the pipeline authenticates every request through `requireSession`
before any callable runs, and never consults the callable's declared
`allowUnauthenticated` flag: rewriting every flag in the registry leaves
every run unchanged, and a request whose credentials fail verification is
rejected (never a 200 response, no method invocation) even when the
resolved callable declares `allowUnauthenticated := true`. -/
theorem rpc_allowUnauthenticated_never_consulted {V : Type} (registry : PipeRegistry V)
    (deps : PipeDeps V) (hasNext : Bool) (request : PipeRequest V) (store : ViewStore V) :
    (∀ flags : String → String → Option Bool,
      handleViewRpc (overrideFlags flags registry) deps hasNext request store =
        handleViewRpc registry deps hasNext request store) ∧
    (∀ (controllerKey methodKey : String) (args : V) (entry : PipeControllerEntry V)
        (callable : PipeCallableMetadata) (msg : String),
      request.paramsKey = some controllerKey → ¬ controllerKey = "" →
      parseRequestBody request = Except.ok (methodKey, args) →
      resolveCallable registry controllerKey methodKey = Except.ok (entry, callable) →
      callable.config.allowUnauthenticated = some true →
      deps.requireSession request = Except.error msg →
      handleViewRpc registry deps hasNext request store =
        (store, [PipeEvent.authenticate], mapPipelineError hasNext msg) ∧
      ∀ body : PipeResponseBody V,
        mapPipelineError (V := V) hasNext msg ≠ PipeOutcome.respond 200 body) := by
  constructor
  · intro flags
    cases hp : request.paramsKey with
    | none => rw [handleViewRpc, handleViewRpc, hp]
    | some ck =>
      rw [handleViewRpc, handleViewRpc, hp]
      dsimp only
      by_cases hck : ck = ""
      · rw [if_pos hck, if_pos hck]
      · rw [if_neg hck, if_neg hck]
        cases hb : parseRequestBody request with
        | error msg => rfl
        | ok pr =>
          rcases pr with ⟨mk, args⟩
          dsimp only
          rw [resolveCallable_overrideFlags]
          cases hres : resolveCallable registry ck mk with
          | error msg => rfl
          | ok rc =>
            rcases rc with ⟨entry, c⟩
            dsimp only [Except.map]
            rfl
  · intro controllerKey methodKey args entry callable msg hkey hck hparse hresolve _ hsessErr
    constructor
    · rw [handleViewRpc, hkey]
      simp only [if_neg hck, hparse, hresolve, hsessErr]
    · exact fun body => mapPipelineError_ne_200 hasNext msg body

/-- Witness for C10: a request with a missing Authorization credential is
rejected with the generic 500 even though the resolved callable declares
`allowUnauthenticated := true`. -/
theorem rpc_allowUnauthenticated_never_consulted_witness :
    handleViewRpc (V := Nat)
      (fun k => if k = "v" then
        some ⟨⟨"v", none⟩, ⟨none, none, none, []⟩,
          [⟨⟨"m1", none, some true⟩, "m1"⟩]⟩
        else none)
      ⟨fun _ => Except.error "Missing Authorization header.", "rid"⟩
      false ⟨some "v", some ⟨some "m1", 0⟩⟩ [] =
      ([], [PipeEvent.authenticate],
        PipeOutcome.respond 500 (PipeResponseBody.errorBody "Unexpected server error.")) := by
  have h := ((rpc_allowUnauthenticated_never_consulted
    (fun k => if k = "v" then
      some ⟨⟨"v", none⟩, ⟨none, none, none, []⟩,
        [⟨⟨"m1", none, some true⟩, "m1"⟩]⟩
      else none)
    ⟨fun _ => Except.error "Missing Authorization header.", "rid"⟩
    false ⟨some "v", some ⟨some "m1", 0⟩⟩ []).2
    "v" "m1" 0 _ _ "Missing Authorization header."
    rfl (by decide) rfl (by rfl) (by rfl) rfl).1
  rw [h]
  rfl

/-! Section: ViewLockManager theorems -/

/-- Embeds `Map.set` then `Map.get` at the same key. -/
theorem lookup_setLock_self (locks : List (String × JsPromise)) (k : String)
    (p : JsPromise) : lookupLock (setLock locks k p) k = some p := by
  unfold setLock
  by_cases hs : (locks.find? (fun e => e.1 = k)).isSome
  · rw [if_pos hs]
    unfold lookupLock
    induction locks with
    | nil => simp at hs
    | cons e rest ih =>
      by_cases he : e.1 = k
      · rw [List.map_cons, if_pos he, List.find?_cons_of_pos _ (by simp)]
        rfl
      · rw [List.find?_cons_of_neg _ (by simp [he])] at hs
        rw [List.map_cons, if_neg he, List.find?_cons_of_neg _ (by simp [he])]
        exact ih hs
  · rw [if_neg hs]
    unfold lookupLock
    rw [List.find?_append, Option.not_isSome_iff_eq_none.mp hs,
      List.find?_cons_of_pos _ (by simp)]
    rfl

/-- The in-place rewrite of `Map.set` is invisible to `find?` at other
keys. -/
theorem find?_setLock_map (k k2 : String) (p : JsPromise) (hne : ¬ k2 = k) :
    ∀ locks : List (String × JsPromise),
    List.find? (fun e => e.1 = k2) (locks.map (fun e => if e.1 = k then (k, p) else e)) =
      List.find? (fun e => e.1 = k2) locks := by
  intro locks
  induction locks with
  | nil => rfl
  | cons e rest ih =>
    by_cases he : e.1 = k
    · rw [List.map_cons, if_pos he,
        List.find?_cons_of_neg _ (by
          simp only [decide_eq_true_eq]
          exact fun h => hne h.symm),
        List.find?_cons_of_neg _ (by
          simp only [decide_eq_true_eq]
          rw [he]
          exact fun h => hne h.symm)]
      exact ih
    · rw [List.map_cons, if_neg he]
      by_cases hk2 : e.1 = k2
      · rw [List.find?_cons_of_pos _ (by simp [hk2]),
          List.find?_cons_of_pos _ (by simp [hk2])]
      · rw [List.find?_cons_of_neg _ (by simp [hk2]),
          List.find?_cons_of_neg _ (by simp [hk2])]
        exact ih

/-- Embeds `Map.set` leaves other keys untouched. -/
theorem lookup_setLock_other (locks : List (String × JsPromise)) (k k2 : String)
    (p : JsPromise) (hne : ¬ k2 = k) :
    lookupLock (setLock locks k p) k2 = lookupLock locks k2 := by
  unfold setLock
  by_cases hs : (locks.find? (fun e => e.1 = k)).isSome
  · rw [if_pos hs]
    unfold lookupLock
    rw [find?_setLock_map k k2 p hne]
  · rw [if_neg hs]
    unfold lookupLock
    rw [List.find?_append,
      List.find?_cons_of_neg _ (by
        simp only [decide_eq_true_eq]
        exact fun h => hne h.symm)]
    cases List.find? (fun e => e.1 = k2) locks <;> rfl

/-- A promise settles exactly when every release it depends on was called. -/
theorem resolvedIn_iff_deps (released : List Nat) (p : JsPromise) :
    resolvedIn released p = true ↔ ∀ i ∈ promiseDeps p, i ∈ released := by
  induction p with
  | resolvedUnit => simp [resolvedIn, promiseDeps]
  | waiterNext i => simp [resolvedIn, promiseDeps, List.elem_iff]
  | chain p q ihp ihq =>
    simp only [resolvedIn, promiseDeps, Bool.and_eq_true, ihp, ihq, List.mem_append]
    constructor
    · rintro ⟨h1, h2⟩ i (h | h)
      · exact h1 i h
      · exact h2 i h
    · intro h
      exact ⟨fun i hi => h i (Or.inl hi), fun i hi => h i (Or.inr hi)⟩

/-- A release that a promise does not depend on never affects whether it
settles. -/
theorem resolvedIn_filter_ne (released : List Nat) (p : JsPromise) (i : Nat)
    (h : i ∉ promiseDeps p) :
    resolvedIn (released.filter (fun a => !(a = i))) p = resolvedIn released p := by
  induction p with
  | resolvedUnit => rfl
  | waiterNext j =>
    have hji : ¬ j = i := by
      intro hji
      exact h (by simp [promiseDeps, hji])
    simp only [resolvedIn]
    rcases hm : released.contains j with _ | _
    · rw [Bool.eq_false_iff] at hm ⊢
      intro hc
      have : j ∈ released.filter (fun a => !(a = i)) := List.elem_iff.mp hc
      exact hm (List.elem_iff.mpr (List.mem_of_mem_filter this))
    · have : j ∈ released := List.elem_iff.mp hm
      exact List.elem_iff.mpr (List.mem_filter.mpr ⟨this, by simp [hji]⟩)
  | chain p q ihp ihq =>
    have hp : i ∉ promiseDeps p := fun hm => h (by simp [promiseDeps, hm])
    have hq : i ∉ promiseDeps q := fun hm => h (by simp [promiseDeps, hm])
    simp only [resolvedIn, ihp hp, ihq hq]

/-- Every waiter id is below the id counter. -/
theorem waiter_id_lt_nextId (s : LockManagerState) (inv : LockInv s)
    (w : Waiter) (hw : w ∈ s.waiters) : w.id < s.nextId := by
  have : w.id ∈ s.waiters.map Waiter.id := List.mem_map_of_mem Waiter.id hw
  rw [inv.ids_range] at this
  exact List.mem_range.mp this

/-- Waiter ids identify waiters uniquely. -/
theorem waiter_id_injective (s : LockManagerState) (inv : LockInv s)
    (w1 : Waiter) (h1 : w1 ∈ s.waiters) (w2 : Waiter) (h2 : w2 ∈ s.waiters)
    (h : w1.id = w2.id) : w1 = w2 := by
  have hnodup : (s.waiters.map Waiter.id).Nodup := by
    rw [inv.ids_range]
    exact List.nodup_range _
  exact List.inj_on_of_nodup_map hnodup h1 h2 h

/-- The invariant holds for a fresh manager. -/
theorem lockInv_initial : LockInv initialLockState := by
  refine ⟨rfl, ?_, ?_, ?_, ?_, ?_, ?_, ?_⟩ <;> intro a
  · exact fun h => absurd h (List.not_mem_nil a)
  · intro p h
    exact absurd h (by simp [lookupLock, initialLockState])
  · intro h w hw
    exact absurd hw (List.not_mem_nil w)
  · intro p h
    exact absurd h (by simp [lookupLock, initialLockState])
  · intro p h
    exact absurd h (by simp [lookupLock, initialLockState])
  · exact fun h => absurd h (List.not_mem_nil a)
  · exact fun h => absurd h (List.not_mem_nil a)

/-- Embeds `acquire` preserves the invariant. -/
theorem lockInv_acquire (s : LockManagerState) (sessionId viewKey : String)
    (inv : LockInv s) : LockInv (acquireStep s sessionId viewKey) := by
  have hmemlt := waiter_id_lt_nextId s inv
  set k0 := lockKeyOf sessionId viewKey with hk0
  set cur := (lookupLock s.locks k0).getD JsPromise.resolvedUnit with hcur
  set wn : Waiter := ⟨s.nextId, k0, cur, JsPromise.waiterNext s.nextId⟩ with hwn
  have hstate : acquireStep s sessionId viewKey =
      { locks := setLock s.locks k0 (JsPromise.chain cur (JsPromise.waiterNext s.nextId))
        nextId := s.nextId + 1
        waiters := s.waiters ++ [wn]
        released := s.released } := rfl
  have hcur_sub : ∀ i ∈ promiseDeps cur, ∃ w ∈ s.waiters, w.id = i ∧ w.lockKey = k0 := by
    intro i hi
    rcases hl : lookupLock s.locks k0 with _ | p
    · rw [hcur, hl] at hi
      exact absurd hi (by simp [promiseDeps])
    · rw [hcur, hl] at hi
      exact inv.map_deps_sub k0 p hl i hi
  have hcur_sup : ∀ w ∈ s.waiters, w.lockKey = k0 → w.id ∈ promiseDeps cur := by
    intro w hw hkey
    rcases hl : lookupLock s.locks k0 with _ | p
    · exact absurd hkey (inv.map_none k0 hl w hw)
    · rw [hcur, hl]
      exact inv.map_deps_sup k0 p hl w hw hkey
  rw [hstate]
  refine ⟨?_, ?_, ?_, ?_, ?_, ?_, ?_, ?_⟩
  · simp only [List.map_append, List.map_cons, List.map_nil]
    rw [inv.ids_range]
    exact (List.range_succ s.nextId).symm
  · intro w hw
    rcases List.mem_append.mp hw with hw | hw
    · exact inv.next_shape w hw
    · rw [List.mem_singleton.mp hw]
  · intro k p hl
    by_cases hk : k = k0
    · rw [hk, lookup_setLock_self] at hl
      exact ⟨cur, JsPromise.waiterNext s.nextId, (Option.some.inj hl).symm⟩
    · rw [lookup_setLock_other _ _ _ _ hk] at hl
      exact inv.map_chain k p hl
  · intro k hl w hw
    by_cases hk : k = k0
    · rw [hk, lookup_setLock_self] at hl
      exact absurd hl (by simp)
    · rw [lookup_setLock_other _ _ _ _ hk] at hl
      rcases List.mem_append.mp hw with hw | hw
      · exact inv.map_none k hl w hw
      · rw [List.mem_singleton.mp hw]
        exact fun h => hk h.symm
  · intro k p hl i hi
    by_cases hk : k = k0
    · rw [hk, lookup_setLock_self] at hl
      rw [← Option.some.inj hl] at hi
      simp only [promiseDeps, List.mem_append, List.mem_singleton] at hi
      rcases hi with hi | hi
      · obtain ⟨w, hw, hid, hkey⟩ := hcur_sub i hi
        exact ⟨w, List.mem_append_left _ hw, hid, hk ▸ hkey⟩
      · exact ⟨wn, List.mem_append_right _ (List.mem_singleton_self wn), hi.symm, hk ▸ rfl⟩
    · rw [lookup_setLock_other _ _ _ _ hk] at hl
      obtain ⟨w, hw, hid, hkey⟩ := inv.map_deps_sub k p hl i hi
      exact ⟨w, List.mem_append_left _ hw, hid, hkey⟩
  · intro k p hl w hw hkey
    by_cases hk : k = k0
    · rw [hk, lookup_setLock_self] at hl
      rw [← Option.some.inj hl]
      simp only [promiseDeps, List.mem_append, List.mem_singleton]
      rcases List.mem_append.mp hw with hw | hw
      · exact Or.inl (hcur_sup w hw (hk ▸ hkey))
      · rw [List.mem_singleton.mp hw]
        exact Or.inr rfl
    · rw [lookup_setLock_other _ _ _ _ hk] at hl
      rcases List.mem_append.mp hw with hw | hw
      · exact inv.map_deps_sup k p hl w hw hkey
      · rw [List.mem_singleton.mp hw] at hkey
        exact absurd hkey.symm hk
  · intro w hw i hi
    rcases List.mem_append.mp hw with hw | hw
    · obtain ⟨w2, hw2, hid, hkey⟩ := inv.current_deps w hw i hi
      exact ⟨w2, List.mem_append_left _ hw2, hid, hkey⟩
    · rw [List.mem_singleton.mp hw] at hi ⊢
      obtain ⟨w2, hw2, hid, hkey⟩ := hcur_sub i hi
      exact ⟨w2, List.mem_append_left _ hw2, hid, hkey⟩
  · intro w1 hw1 w2 hw2 hlt hkey
    rcases List.mem_append.mp hw1 with hw1 | hw1 <;>
      rcases List.mem_append.mp hw2 with hw2 | hw2
    · exact inv.fifo w1 hw1 w2 hw2 hlt hkey
    · rw [List.mem_singleton.mp hw2] at hkey ⊢
      exact hcur_sup w1 hw1 hkey
    · rw [List.mem_singleton.mp hw1] at hlt
      exact absurd hlt (by
        have hwnid : wn.id = s.nextId := rfl
        have := hmemlt w2 hw2
        omega)
    · rw [List.mem_singleton.mp hw1, List.mem_singleton.mp hw2] at hlt
      exact absurd hlt (lt_irrefl _)

/-- The release callback never removes a map entry: the stored tail is the
chained promise `current.then(() => next)`, which is a different object
from `next`, so the `===` guard always fails and the state (other than the
released set) is unchanged. -/
theorem releaseStep_locks_unchanged (s : LockManagerState) (w : Waiter)
    (inv : LockInv s) (hw : w ∈ s.waiters) :
    releaseStep s w = { s with released := w.id :: s.released } := by
  unfold releaseStep
  rw [if_neg]
  intro hl
  rcases hcase : lookupLock s.locks w.lockKey with _ | p
  · rw [hcase] at hl
    cases hl
  · rw [hcase] at hl
    obtain ⟨c, n, hchain⟩ := inv.map_chain w.lockKey p hcase
    have hnext := inv.next_shape w hw
    rw [hchain, hnext] at hl
    cases Option.some.inj hl

/-- Embeds `release` preserves the invariant. -/
theorem lockInv_release (s : LockManagerState) (w : Waiter)
    (inv : LockInv s) (hw : w ∈ s.waiters) : LockInv (releaseStep s w) := by
  rw [releaseStep_locks_unchanged s w inv hw]
  exact ⟨inv.ids_range, inv.next_shape, inv.map_chain, inv.map_none,
    inv.map_deps_sub, inv.map_deps_sup, inv.current_deps, inv.fifo⟩

/-- Every event preserves the invariant. -/
theorem lockInv_step (s : LockManagerState) (e : LockEvent) (inv : LockInv s) :
    LockInv (lockStep s e) := by
  cases e with
  | acquire sessionId viewKey => exact lockInv_acquire s sessionId viewKey inv
  | release i =>
    rcases hf : s.waiters.find? (fun w => w.id = i) with _ | w
    · simpa [lockStep, hf] using inv
    · simpa [lockStep, hf] using
        lockInv_release s w inv (List.mem_of_find?_eq_some hf)

/-- The invariant holds in every reachable state. -/
theorem lockInv_runLock (events : List LockEvent) : LockInv (runLock events) := by
  suffices h : ∀ s : LockManagerState, LockInv s → LockInv (events.foldl lockStep s) from
    h initialLockState lockInv_initial
  induction events with
  | nil => exact fun s inv => inv
  | cons e rest ih =>
    intro s inv
    exact ih (lockStep s e) (lockInv_step s e inv)

/-- C1 (amended): in every reachable state of a `ViewLockManager`, waiter
ids record arrival order (the i-th acquire call gets id i); for two
acquisitions of the same composite lock key, the later one's acquire
promise can only be settled once the earlier one's release callback has
been invoked (strict FIFO); and for two acquisitions whose composite lock
keys `sessionId + ":" + viewKey` differ, neither ever waits on the other —
the later one's settlement does not depend on the other's release at all.
(Distinct (sessionId, viewKey) pairs can collide on the same composite
key when the sessionId contains a `":"`: see the counterexample.) -/
theorem viewLockManager_fifo_and_isolation (events : List LockEvent) :
    ((runLock events).waiters.map Waiter.id = List.range (runLock events).nextId) ∧
    ∀ w1 ∈ (runLock events).waiters, ∀ w2 ∈ (runLock events).waiters,
      (w1.id < w2.id → w1.lockKey = w2.lockKey →
        ∀ R : List Nat, resolvedIn R w2.current = true → w1.id ∈ R) ∧
      (¬ w1.lockKey = w2.lockKey →
        w1.id ∉ promiseDeps w2.current ∧
        ∀ R : List Nat,
          resolvedIn (R.filter (fun a => !(a = w1.id))) w2.current =
            resolvedIn R w2.current) := by
  have inv := lockInv_runLock events
  refine ⟨inv.ids_range, ?_⟩
  intro w1 h1 w2 h2
  constructor
  · intro hlt hkey R hres
    exact (resolvedIn_iff_deps R w2.current).mp hres w1.id
      (inv.fifo w1 h1 w2 h2 hlt hkey)
  · intro hkey
    have hnot : w1.id ∉ promiseDeps w2.current := by
      intro hmem
      obtain ⟨w3, hw3, hid, hk3⟩ := inv.current_deps w2 h2 w1.id hmem
      rw [waiter_id_injective _ inv w3 hw3 w1 h1 hid] at hk3
      exact hkey hk3
    exact ⟨hnot, fun R => resolvedIn_filter_ne R w2.current w1.id hnot⟩

/-- Witness for C1: with two acquisitions of the same key, the second
waiter's acquire promise settles under the release set `[0]`, and the
theorem then forces the first waiter's release (id 0) to be in that set. -/
theorem viewLockManager_fifo_and_isolation_witness :
    resolvedIn [0] (JsPromise.chain JsPromise.resolvedUnit (JsPromise.waiterNext 0)) = true ∧
    (0 : Nat) ∈ [0] :=
  ⟨by decide,
   ((viewLockManager_fifo_and_isolation
      [LockEvent.acquire "sessA" "view1", LockEvent.acquire "sessA" "view1"]).2
      ⟨0, "sessA:view1", JsPromise.resolvedUnit, JsPromise.waiterNext 0⟩ (by decide)
      ⟨1, "sessA:view1", JsPromise.chain JsPromise.resolvedUnit (JsPromise.waiterNext 0),
        JsPromise.waiterNext 1⟩ (by decide)).1
      (by decide) (by decide) [0] (by decide)⟩

/-- Counterexample to C1 as stated: the two acquire calls use different
(sessionId, viewKey) keys, yet their composite lock keys collide
(`"a:b" + ":" + "c" = "a" + ":" + "b:c"`), so the second acquisition's
promise depends on the first acquisition's release (id 0) and is not
settled while no release has been called: acquisitions with different keys
can wait on each other. -/
theorem viewLockManager_key_collision_counterexample :
    ¬ (("a:b", "c") = ("a", "b:c")) ∧
    lockKeyOf "a:b" "c" = lockKeyOf "a" "b:c" ∧
    (runLock [LockEvent.acquire "a:b" "c", LockEvent.acquire "a" "b:c"]).waiters =
      [⟨0, "a:b:c", JsPromise.resolvedUnit, JsPromise.waiterNext 0⟩,
       ⟨1, "a:b:c", JsPromise.chain JsPromise.resolvedUnit (JsPromise.waiterNext 0),
        JsPromise.waiterNext 1⟩] ∧
    (0 : Nat) ∈ promiseDeps
      (JsPromise.chain JsPromise.resolvedUnit (JsPromise.waiterNext 0)) ∧
    resolvedIn [] (JsPromise.chain JsPromise.resolvedUnit (JsPromise.waiterNext 0)) = false :=
  ⟨by decide, rfl, rfl, by decide, rfl⟩

/-- C9 fails on the code: after the only acquisition of a key has been
released (its queue is fully drained), the `locks` map still contains the
entry.  The delete guard compares the stored tail — the chained promise
`current.then(() => next)` — with `next` itself, two different objects, so
it never fires. -/
theorem viewLockManager_drained_entry_not_removed :
    (runLock [LockEvent.acquire "sessA" "view1", LockEvent.release 0]).released = [0] ∧
    resolvedIn (runLock [LockEvent.acquire "sessA" "view1", LockEvent.release 0]).released
      (JsPromise.chain JsPromise.resolvedUnit (JsPromise.waiterNext 0)) = true ∧
    lookupLock (runLock [LockEvent.acquire "sessA" "view1", LockEvent.release 0]).locks
      (lockKeyOf "sessA" "view1") =
      some (JsPromise.chain JsPromise.resolvedUnit (JsPromise.waiterNext 0)) :=
  ⟨rfl, rfl, rfl⟩

end QuickApp
